import Mathlib

/-
Shallow embedding of the coupon generation and validation service
(TypeScript / PostgreSQL) together with proofs about its validation
and accounting pipeline and its asynchronous validation-log batcher.

Conventions of the embedding:
- monetary amounts and JS numbers are modelled as rationals;
- timestamps (JS Date values) are modelled as integers (milliseconds);
- SQL NULL and JS undefined are modelled as Option.none;
- JS truthiness of a number n is the test n = 0 (falsy) / n = 0 false (truthy);
- database rows live in Lean lists; one validation request is one atomic
  step (the store serializes concurrent attempts, per the repository design);
- the fallibility of the store at commit time is an explicit Boolean oracle.
-/

set_option autoImplicit false

namespace CouponSys

/-- Coupon policy discriminator, from src/types (part_003). -/
inductive CouponType where
  | user_specific
  | time_specific
deriving DecidableEq

/-- Coupon lifecycle status, from src/types (part_003). -/
inductive CouponStatus where
  | active
  | expired
  | exhausted
  | inactive
deriving DecidableEq

/-- Discount kind, from src/types (part_003). -/
inductive DiscountType where
  | percentage
  | fixed
deriving DecidableEq

/-- String rendering of a status, as interpolated into the reason
string Coupon is dollar-brace-status in validateCoupon step 2. -/
def CouponStatus.str : CouponStatus → String
  | .active => "active"
  | .expired => "expired"
  | .exhausted => "exhausted"
  | .inactive => "inactive"

/-- A row of the coupons table / the Coupon interface of src/types. -/
structure Coupon where
  id : Nat
  code : String
  type : CouponType
  discountType : DiscountType
  discountValue : ℚ
  maxDiscountAmount : Option ℚ
  minOrderValue : ℚ
  status : CouponStatus
  userId : Option String
  validFrom : Option ℤ
  validUntil : Option ℤ
  maxUsesPerUser : Option ℤ
  maxTotalUses : Option ℤ
  currentTotalUses : Nat
deriving DecidableEq

/-- A row of the coupon_usage table (one successful redemption). -/
structure Usage where
  couponId : Nat
  userId : String
  orderId : Option String
  orderValue : ℚ
  discountApplied : ℚ
deriving DecidableEq

/-- One audit entry, the ValidationLog interface of
src/utils/validationLogQueue.ts. -/
structure ValidationLog where
  couponCode : String
  userId : Option String
  orderId : Option String
  orderValue : Option ℚ
  isValid : Bool
  validationReason : Option String
  discountApplied : Option ℚ
  finalAmount : Option ℚ
  responseTimeMs : Option Nat
  couponId : Option Nat
deriving DecidableEq

/-- The ValidateCouponDto of src/types. -/
structure ValidateCouponDto where
  code : String
  userId : String
  orderId : Option String
  orderValue : ℚ
deriving DecidableEq

/-- The ValidationResult of src/types. -/
structure ValidationResult where
  valid : Bool
  coupon : Option Coupon := none
  discountAmount : Option ℚ := none
  finalAmount : Option ℚ := none
  reason : Option String := none
deriving DecidableEq

/-- JS Math.round: round half toward positive infinity. -/
def jsRound (x : ℚ) : ℤ := ⌊x + 1 / 2⌋

/-- Math.round (discount * 100) / 100 of calculateDiscount in
src/src/utils/helpers.ts: round to two decimal places, half up. -/
def roundTo2 (x : ℚ) : ℚ := (jsRound (x * 100) : ℚ) / 100

/-- calculateDiscount from src/src/utils/helpers.ts lines 39 to 57.
The cap test mirrors the JS truthiness guard
if (maxDiscountAmount and-also discount greater-than maxDiscountAmount):
a cap that is absent or equal to 0 is never applied. -/
def calculateDiscount (orderValue : ℚ) (discountType : DiscountType)
    (discountValue : ℚ) (maxDiscountAmount : Option ℚ) : ℚ :=
  let discount :=
    match discountType with
    | .percentage =>
      let d := orderValue * discountValue / 100
      match maxDiscountAmount with
      | some m => if m ≠ 0 ∧ d > m then m else d
      | none => d
    | .fixed => min discountValue orderValue
  roundTo2 discount

/-- isWithinValidDateRange from src/src/utils/helpers.ts lines 65 to 72:
false when either bound is absent, otherwise
validFrom less-or-equal now and-also now less-or-equal validUntil
(a CLOSED interval: the source compares with now <= validUntil). -/
def isWithinValidDateRange (validFrom validUntil : Option ℤ) (now : ℤ) : Bool :=
  match validFrom, validUntil with
  | some f, some u => decide (f ≤ now) && decide (now ≤ u)
  | _, _ => false

/-- The persistent store plus the in-memory audit queue contents:
coupons table, coupon_usage table, the list of enqueued validation-log
entries, and the id generator for new coupon rows. -/
structure DBState where
  coupons : List Coupon
  usage : List Usage
  logs : List ValidationLog
  nextId : Nat
deriving DecidableEq

/-- CouponService.getCouponByCode: SELECT ... FROM coupons WHERE code = $1
(first matching row). -/
def getCouponByCode (st : DBState) (code : String) : Option Coupon :=
  st.coupons.find? (fun c => c.code == code)

/-- ValidationService.getUserCouponUsageCount: SELECT COUNT(*) FROM
coupon_usage WHERE coupon_id = $1 AND user_id = $2. -/
def getUserCouponUsageCount (st : DBState) (couponId : Nat) (userId : String) : Nat :=
  (st.usage.filter (fun u => u.couponId == couponId && u.userId == userId)).length

/-- ValidationService.isOrderAlreadyUsed: SELECT COUNT(*) FROM coupon_usage
WHERE order_id = $1, compared with 0. -/
def isOrderAlreadyUsed (st : DBState) (orderId : String) : Bool :=
  st.usage.any (fun u => u.orderId == some orderId)

/-- CouponService.updateCouponStatus: UPDATE coupons SET status = $1
WHERE id = $2. -/
def updateCouponStatus (st : DBState) (id : Nat) (status : CouponStatus) : DBState :=
  { st with coupons := st.coupons.map (fun c => if c.id = id then { c with status := status } else c) }

/-- ValidationService.validateUserSpecificCoupon: the requesting user must be
the bound user (coupon.userId strict-equals dto.userId in the source) and
must have no prior usage row for this coupon. Pure decision, no state
change. -/
def validateUserSpecificCoupon (st : DBState) (coupon : Coupon)
    (dto : ValidateCouponDto) : ValidationResult :=
  if coupon.userId ≠ some dto.userId then
    { valid := false, reason := some "This coupon is not assigned to you" }
  else if getUserCouponUsageCount st coupon.id dto.userId > 0 then
    { valid := false, reason := some "You have already used this coupon" }
  else
    { valid := true }

/-- The truthy-cap-and-count-at-limit guard used twice by
ValidationService.validateTimeSpecificCoupon: JS
if (cap and-also count greater-or-equal cap). False when the cap is
absent or 0. -/
def capHit (cap : Option ℤ) (count : ℤ) : Bool :=
  match cap with
  | some m => !(m == 0) && decide (count ≥ m)
  | none => false

/-- The status side effect of an out-of-range time-specific attempt:
JS if (coupon.validUntil and-also now greater-than coupon.validUntil)
then update the status to expired. -/
def expiredStateUpdate (now : ℤ) (st : DBState) (coupon : Coupon) : DBState :=
  match coupon.validUntil with
  | some u => if now > u then updateCouponStatus st coupon.id .expired else st
  | none => st

/-- ValidationService.validateTimeSpecificCoupon. Returns the decision and
the possibly updated store: on an out-of-range attempt with
now strictly greater than validUntil the status is set to expired, and on
an aggregate usage-limit denial the status is set to exhausted. The guards
on coupon.maxTotalUses and coupon.maxUsesPerUser follow JS truthiness
(absent or 0 means the guard is skipped). -/
def validateTimeSpecificCoupon (now : ℤ) (st : DBState) (coupon : Coupon)
    (dto : ValidateCouponDto) : ValidationResult × DBState :=
  if ¬ isWithinValidDateRange coupon.validFrom coupon.validUntil now then
    ({ valid := false, reason := some "Coupon has expired or is not yet valid" },
      expiredStateUpdate now st coupon)
  else if capHit coupon.maxTotalUses (coupon.currentTotalUses : ℤ) then
    ({ valid := false, reason := some "Coupon usage limit reached" },
      updateCouponStatus st coupon.id .exhausted)
  else if capHit coupon.maxUsesPerUser (getUserCouponUsageCount st coupon.id dto.userId : ℤ) then
    ({ valid := false,
       reason := some ("You have reached the maximum usage limit (" ++
         toString (coupon.maxUsesPerUser.getD 0) ++ ") for this coupon") }, st)
  else
    ({ valid := true }, st)

/-- Step 4 guard of validateCoupon: JS if (dto.orderId) followed by the
isOrderAlreadyUsed lookup; skipped when the orderId is absent or the empty
string (falsy). -/
def dupOrderCheck (st : DBState) (orderId : Option String) : Bool :=
  match orderId with
  | some oid => !(oid == "") && isOrderAlreadyUsed st oid
  | none => false

/-- The store-level uniqueness constraint on coupon_usage.order_id
(schema.sql line 53, kept as a partial unique index by migration 002):
an INSERT whose non-null order_id already occurs in the table fails. -/
def orderConflict (st : DBState) (orderId : Option String) : Bool :=
  match orderId with
  | some oid => st.usage.any (fun u => u.orderId == some oid)
  | none => false

/-- First statement of the db.transaction block of validateCoupon:
INSERT INTO coupon_usage. -/
def insertUsage (st : DBState) (coupon : Coupon) (dto : ValidateCouponDto)
    (discountAmount : ℚ) : DBState :=
  { st with usage := st.usage ++
    [({ couponId := coupon.id, userId := dto.userId, orderId := dto.orderId,
        orderValue := dto.orderValue, discountApplied := discountAmount } : Usage)] }

/-- Second statement of the db.transaction block: UPDATE coupons SET
current_total_uses = current_total_uses + 1 WHERE id = $1. -/
def incrementTotalUses (st : DBState) (cid : Nat) : DBState :=
  { st with coupons := st.coupons.map (fun c =>
      if c.id = cid then { c with currentTotalUses := c.currentTotalUses + 1 } else c) }

/-- Third statement of the db.transaction block: when the snapshot counter
plus one reaches a truthy max_total_uses, set the status to exhausted. -/
def maybeExhaust (st : DBState) (coupon : Coupon) : DBState :=
  match coupon.maxTotalUses with
  | some m =>
    if m ≠ 0 ∧ (coupon.currentTotalUses : ℤ) + 1 ≥ m then
      updateCouponStatus st coupon.id .exhausted
    else st
  | none => st

/-- The body of the db.transaction block of validateCoupon: insert the
usage row, increment current_total_uses of the coupon row, and, when the
snapshot counter plus one reaches a truthy max_total_uses, set the status
to exhausted in the same atomic unit. -/
def recordUsageTransaction (st : DBState) (coupon : Coupon)
    (dto : ValidateCouponDto) (discountAmount : ℚ) : DBState :=
  maybeExhaust (incrementTotalUses (insertUsage st coupon dto discountAmount) coupon.id) coupon

/-- The try block of ValidationService.validateCoupon: steps 1 to 6 of the
pipeline. Returns the result variable as the finally block sees it, whether
the call threw, the captured couponId, and the updated store. commitOk is
the oracle for store availability at commit time; a commit whose usage
INSERT violates the order_id uniqueness constraint also throws and rolls
back. The duplicate-order check runs only when dto.orderId is truthy
(present and non-empty). -/
def validateCouponCore (now : ℤ) (commitOk : Bool) (st : DBState)
    (dto : ValidateCouponDto) : ValidationResult × Bool × Option Nat × DBState :=
  match getCouponByCode st dto.code with
  | none => ({ valid := false, reason := some "Coupon not found" }, false, none, st)
  | some coupon =>
    if coupon.status ≠ .active then
      ({ valid := false, reason := some ("Coupon is " ++ coupon.status.str) },
        false, some coupon.id, st)
    else if dto.orderValue < coupon.minOrderValue then
      ({ valid := false,
         reason := some ("Minimum order value of " ++ toString coupon.minOrderValue ++ " not met") },
        false, some coupon.id, st)
    else if dupOrderCheck st dto.orderId then
      ({ valid := false, reason := some "This order has already used a coupon" },
        false, some coupon.id, st)
    else
      let vres_st :=
        if coupon.type = .user_specific then (validateUserSpecificCoupon st coupon dto, st)
        else validateTimeSpecificCoupon now st coupon dto
      let vres := vres_st.1
      let st1 := vres_st.2
      if vres.valid then
        let discountAmount := calculateDiscount dto.orderValue coupon.discountType
          coupon.discountValue coupon.maxDiscountAmount
        let finalAmount := dto.orderValue - discountAmount
        if commitOk && ! orderConflict st1 dto.orderId then
          ({ valid := true, coupon := some coupon,
             discountAmount := some discountAmount, finalAmount := some finalAmount },
            false, some coupon.id, recordUsageTransaction st1 coupon dto discountAmount)
        else
          ({ valid := false, reason := some "Validation failed" }, true, some coupon.id, st1)
      else
        (vres, false, some coupon.id, st1)

/-- The entry built by the finally block of validateCoupon and handed to
ValidationLogService.logValidationAttempt. -/
def mkLog (dto : ValidateCouponDto) (result : ValidationResult)
    (elapsed : Nat) (couponId : Option Nat) : ValidationLog :=
  { couponCode := dto.code
    userId := some dto.userId
    orderId := dto.orderId
    orderValue := some dto.orderValue
    isValid := result.valid
    validationReason := if result.valid then none else result.reason
    discountApplied := result.discountAmount
    finalAmount := result.finalAmount
    responseTimeMs := some elapsed
    couponId := couponId }

/-- ValidationService.validateCoupon: the try block followed by the finally
block, which unconditionally enqueues exactly one validation-log entry
built from the result variable and the measured elapsed time, and then
either returns the result or rethrows (Failed to validate coupon). -/
def validateCoupon (now : ℤ) (commitOk : Bool) (elapsed : Nat) (st : DBState)
    (dto : ValidateCouponDto) : Except String ValidationResult × DBState :=
  let r := validateCouponCore now commitOk st dto
  let result := r.1
  let threw := r.2.1
  let cid := r.2.2.1
  let st' := r.2.2.2
  ((if threw then Except.error "Failed to validate coupon" else Except.ok result),
    { st' with logs := st'.logs ++ [mkLog dto result elapsed cid] })

/-- CreateUserSpecificCouponDto of src/types. -/
structure CreateUserSpecificCouponDto where
  userId : String
  discountType : DiscountType
  discountValue : ℚ
  maxDiscountAmount : Option ℚ
  minOrderValue : Option ℚ
deriving DecidableEq

/-- CreateTimeSpecificCouponDto of src/types (code generation is external:
the chosen code is a parameter of the operation). -/
structure CreateTimeSpecificCouponDto where
  discountType : DiscountType
  discountValue : ℚ
  maxDiscountAmount : Option ℚ
  minOrderValue : Option ℚ
  validFrom : ℤ
  validUntil : ℤ
  maxUsesPerUser : ℤ
  maxTotalUses : Option ℤ
deriving DecidableEq

/-- The JS expression value or-else null for an optional number: an absent
or zero value is stored as NULL. -/
def orNullQ (x : Option ℚ) : Option ℚ :=
  match x with
  | some v => if v = 0 then none else some v
  | none => none

/-- The JS expression value or-else null for an optional integer. -/
def orNullZ (x : Option ℤ) : Option ℤ :=
  match x with
  | some v => if v = 0 then none else some v
  | none => none

/-- CouponService.generateUserSpecificCoupon: INSERT INTO coupons with the
user-specific column set; the time-window and usage-cap columns are left
NULL, current_total_uses defaults to 0 and status to active. -/
def generateUserSpecificCoupon (st : DBState) (code : String)
    (dto : CreateUserSpecificCouponDto) : DBState :=
  { st with
    coupons := st.coupons ++
      [({ id := st.nextId, code := code, type := .user_specific,
          discountType := dto.discountType, discountValue := dto.discountValue,
          maxDiscountAmount := orNullQ dto.maxDiscountAmount,
          minOrderValue := (dto.minOrderValue.getD 0),
          status := .active, userId := some dto.userId,
          validFrom := none, validUntil := none,
          maxUsesPerUser := none, maxTotalUses := none,
          currentTotalUses := 0 } : Coupon)],
    nextId := st.nextId + 1 }

/-- CouponService.generateTimeSpecificCoupon: fails when the code already
exists, otherwise INSERT INTO coupons with the time-specific columns; the
user_id column is left NULL and max_total_uses is dto value or-else null. -/
def generateTimeSpecificCoupon (st : DBState) (code : String)
    (dto : CreateTimeSpecificCouponDto) : Option DBState :=
  if (getCouponByCode st code).isSome then none
  else some
    { st with
      coupons := st.coupons ++
        [({ id := st.nextId, code := code, type := .time_specific,
            discountType := dto.discountType, discountValue := dto.discountValue,
            maxDiscountAmount := orNullQ dto.maxDiscountAmount,
            minOrderValue := (dto.minOrderValue.getD 0),
            status := .active, userId := none,
            validFrom := some dto.validFrom, validUntil := some dto.validUntil,
            maxUsesPerUser := some dto.maxUsesPerUser,
            maxTotalUses := orNullZ dto.maxTotalUses,
            currentTotalUses := 0 } : Coupon)],
      nextId := st.nextId + 1 }

/-- The Joi request schema createUserSpecificCouponSchema of
src/validators/coupon.validator.ts (the file is concatenated into
src/src/config/index.ts): userId a required string of 1 to 100 characters,
discountValue a positive number, maxDiscountAmount an optional positive
number, minOrderValue an optional number at least 0. The valid-values
constraint on discountType is carried by the DiscountType type itself, and
the purely descriptive fields description and createdBy (strings capped at
500 and 100 characters) are not part of the embedded DTO, as no embedded
behaviour reads them. -/
def ValidCreateUserDto (dto : CreateUserSpecificCouponDto) : Prop :=
  1 ≤ dto.userId.length ∧ dto.userId.length ≤ 100 ∧
  0 < dto.discountValue ∧
  (∀ m, dto.maxDiscountAmount = some m → 0 < m) ∧
  (∀ v, dto.minOrderValue = some v → 0 ≤ v)

/-- The Joi request schema createTimeSpecificCouponSchema of
src/validators/coupon.validator.ts (concatenated into
src/src/config/index.ts): discountValue a positive number,
maxDiscountAmount an optional positive number, minOrderValue an optional
number at least 0, validUntil strictly greater than validFrom
(Joi .greater on the validFrom reference), maxUsesPerUser a required
positive integer, maxTotalUses an optional positive integer. The integer
fields are ℤ in the embedding, so the .integer() constraints are carried
by the types; the optional code field (4 to 50 characters when supplied,
otherwise generated by the service) is the code parameter of the creation
operation, which this state-level predicate leaves unconstrained - a
strictly larger set of reachable states, so every invariant proved over
Reachable also covers the schema-constrained codes; description and
createdBy are not part of the embedded DTO, as no embedded behaviour
reads them. -/
def ValidCreateTimeDto (dto : CreateTimeSpecificCouponDto) : Prop :=
  0 < dto.discountValue ∧
  (∀ m, dto.maxDiscountAmount = some m → 0 < m) ∧
  (∀ v, dto.minOrderValue = some v → 0 ≤ v) ∧
  dto.validFrom < dto.validUntil ∧
  0 < dto.maxUsesPerUser ∧
  (∀ m, dto.maxTotalUses = some m → 0 < m)

/-- The Joi request schema validateCouponSchema of
src/validators/coupon.validator.ts (concatenated into
src/src/config/index.ts): code a required string of 1 to 50 characters,
userId a required string of 1 to 100 characters, orderId an optional
string of 1 to 100 characters, orderValue a positive number. The optional
ipAddress and userAgent fields are not part of the embedded DTO, as no
embedded behaviour other than log echoing reads them. -/
def ValidValidateDto (dto : ValidateCouponDto) : Prop :=
  1 ≤ dto.code.length ∧ dto.code.length ≤ 50 ∧
  1 ≤ dto.userId.length ∧ dto.userId.length ≤ 100 ∧
  (∀ oid, dto.orderId = some oid → 1 ≤ oid.length ∧ oid.length ≤ 100) ∧
  0 < dto.orderValue

/-- The states of the store reachable through the public API of the
service: coupon creation through the two generation endpoints (behind
their request validators) and coupon validation through the validate
endpoint. Creation requires a fresh code, as the UNIQUE constraint on
coupons.code rejects the INSERT otherwise. -/
inductive Reachable : DBState → Prop where
  | init : Reachable { coupons := [], usage := [], logs := [], nextId := 0 }
  | createUser (st : DBState) (code : String) (dto : CreateUserSpecificCouponDto) :
      Reachable st → ValidCreateUserDto dto → getCouponByCode st code = none →
      Reachable (generateUserSpecificCoupon st code dto)
  | createTime (st st' : DBState) (code : String) (dto : CreateTimeSpecificCouponDto) :
      Reachable st → ValidCreateTimeDto dto →
      generateTimeSpecificCoupon st code dto = some st' →
      Reachable st'
  | validate (st : DBState) (now : ℤ) (commitOk : Bool) (elapsed : Nat)
      (dto : ValidateCouponDto) :
      Reachable st → ValidValidateDto dto →
      Reachable (validateCoupon now commitOk elapsed st dto).2

/-
The asynchronous audit batcher, src/src/utils/validationLogQueue.ts.
A state carries the live buffer, the batch currently handed to the flush
callback when a flush is in flight (the isProcessing flag of the source is
the presence of that batch), the timer flag, and the ghost history of all
batches ever handed to the flush callback.
-/

/-- State of a ValidationLogQueue instance. -/
structure QueueState (α : Type) where
  queue : List α
  inflight : Option (List α)
  timerOn : Bool
  attempted : List (List α)
deriving DecidableEq

/-- The state right after the constructor ran: empty buffer, timer armed. -/
def qInit (α : Type) : QueueState α :=
  { queue := [], inflight := none, timerOn := true, attempted := [] }

/-- add(log): push onto the in-memory buffer and return immediately (the
size-triggered flush it may start is a separate qFlushBegin step). -/
def qAdd {α : Type} (s : QueueState α) (l : α) : QueueState α :=
  { s with queue := s.queue ++ [l] }

/-- The synchronous prefix of flush(): if a flush is already processing or
the buffer is empty, return without effect; otherwise mark processing,
swap the whole buffer out as the batch and start the batched write. -/
def qFlushBegin {α : Type} (s : QueueState α) : QueueState α :=
  if s.inflight.isSome || s.queue.isEmpty then s
  else
    { s with
      inflight := some s.queue
      queue := []
      attempted := s.attempted ++ [s.queue] }

/-- Completion of the batched write of a flush: on success the batch is
dropped, on failure it is unshifted back onto the FRONT of the live
buffer; either way processing ends. The error is swallowed (the flush
promise still resolves), so no caller observes it. -/
def qFlushEnd {α : Type} (s : QueueState α) (ok : Bool) : QueueState α :=
  match s.inflight with
  | none => s
  | some batch =>
    { s with inflight := none, queue := if ok then s.queue else batch ++ s.queue }

/-- shutdown(): clear the interval timer, then await flush(). When no
flush is processing the awaited flush swaps the buffer and completes its
write (with outcome ok) before shutdown returns; when a flush is already
processing the awaited flush returns at its guard and shutdown returns at
once, leaving the in-flight write outstanding. -/
def qShutdown {α : Type} (s : QueueState α) (ok : Bool) : QueueState α :=
  if s.inflight.isSome then { s with timerOn := false }
  else qFlushEnd (qFlushBegin { s with timerOn := false }) ok

/-! Derived counting notions used by the stated properties. -/

/-- Number of coupon_usage rows referencing a given coupon row. -/
def usageCountFor (st : DBState) (couponId : Nat) : Nat :=
  (st.usage.filter (fun u => u.couponId == couponId)).length

/-- Number of coupon_usage rows carrying a given non-null order_id. -/
def countOrder (st : DBState) (oid : String) : Nat :=
  (st.usage.filter (fun u => u.orderId == some oid)).length

/-! Structural lemmas about the pipeline. -/

/-- Two stores related by status-only coupon updates: everything except
coupon statuses coincides. All denied validation attempts relate the
stores before and after in this way. -/
def StatusOnly (st st' : DBState) : Prop :=
  st'.usage = st.usage ∧ st'.logs = st.logs ∧ st'.nextId = st.nextId ∧
  ∃ f : Coupon → CouponStatus,
    st'.coupons = st.coupons.map (fun c => { c with status := f c })

theorem statusOnly_refl (st : DBState) : StatusOnly st st := by
  refine ⟨rfl, rfl, rfl, fun c => c.status, ?_⟩
  simp

theorem statusOnly_update (st : DBState) (i : Nat) (s : CouponStatus) :
    StatusOnly st (updateCouponStatus st i s) := by
  refine ⟨rfl, rfl, rfl, fun c => if c.id = i then s else c.status, ?_⟩
  simp only [updateCouponStatus]
  refine List.map_congr_left ?_
  intro c _
  by_cases h : c.id = i <;> simp [h]

theorem statusOnly_usage {st st' : DBState} (h : StatusOnly st st') :
    st'.usage = st.usage := h.1

/-- Membership in the coupons of a status-only update. -/
theorem statusOnly_mem {st st' : DBState} (h : StatusOnly st st') {c' : Coupon}
    (hc : c' ∈ st'.coupons) :
    ∃ c ∈ st.coupons, c' = { c with status := c'.status } := by
  obtain ⟨-, -, -, f, hf⟩ := h
  rw [hf] at hc
  obtain ⟨c, hc2, he⟩ := List.mem_map.1 hc
  subst he
  exact ⟨c, hc2, rfl⟩

/-- The conditions established by a valid user-specific policy check. -/
theorem validateUserSpecificCoupon_valid_iff (st : DBState) (c : Coupon)
    (dto : ValidateCouponDto) :
    (validateUserSpecificCoupon st c dto).valid = true ↔
      c.userId = some dto.userId ∧ getUserCouponUsageCount st c.id dto.userId = 0 := by
  unfold validateUserSpecificCoupon
  split_ifs with h1 h2
  · simp_all
  · simp_all
    omega
  · simp_all

/-- The conditions established by a valid time-specific policy check. -/
def TimeFacts (now : ℤ) (st : DBState) (dto : ValidateCouponDto) (c : Coupon) : Prop :=
  isWithinValidDateRange c.validFrom c.validUntil now = true ∧
  (∀ m, c.maxTotalUses = some m → m = 0 ∨ (c.currentTotalUses : ℤ) < m) ∧
  (∀ k, c.maxUsesPerUser = some k →
    k = 0 ∨ (getUserCouponUsageCount st c.id dto.userId : ℤ) < k)

/-- A false capHit guard means: any configured cap is zero or strictly
above the count. -/
theorem capHit_eq_false_iff (cap : Option ℤ) (count : ℤ) :
    capHit cap count = false ↔ (∀ m, cap = some m → m = 0 ∨ count < m) := by
  cases cap with
  | none => simp [capHit]
  | some m =>
    simp only [capHit, Bool.and_eq_false_iff]
    constructor
    · rintro (h | h) m' hm' <;> (injection hm' with hh; subst hh; simp_all)
    · intro h
      rcases h m rfl with h0 | hlt
      · left
        simp [h0]
      · right
        simpa using not_le.2 hlt

/-- expiredStateUpdate only touches coupon statuses. -/
theorem statusOnly_expiredStateUpdate (now : ℤ) (st : DBState) (c : Coupon) :
    StatusOnly st (expiredStateUpdate now st c) := by
  unfold expiredStateUpdate
  cases c.validUntil with
  | none => exact statusOnly_refl st
  | some u =>
    by_cases hn : now > u
    · simpa [hn] using statusOnly_update st c.id .expired
    · simpa [hn] using statusOnly_refl st

/-- Case analysis of the time-specific policy check: either it denies and
only coupon statuses change, or it accepts, leaves the store unchanged and
all time-specific conditions hold. -/
theorem validateTimeSpecificCoupon_cases (now : ℤ) (st : DBState) (c : Coupon)
    (dto : ValidateCouponDto) :
    ((validateTimeSpecificCoupon now st c dto).1.valid = false ∧
      StatusOnly st (validateTimeSpecificCoupon now st c dto).2)
    ∨ ((validateTimeSpecificCoupon now st c dto).1.valid = true ∧
      (validateTimeSpecificCoupon now st c dto).2 = st ∧ TimeFacts now st dto c) := by
  unfold validateTimeSpecificCoupon
  by_cases h1 : isWithinValidDateRange c.validFrom c.validUntil now = true
  · rw [if_neg (by simp [h1])]
    by_cases h2 : capHit c.maxTotalUses (c.currentTotalUses : ℤ) = true
    · rw [if_pos h2]
      exact Or.inl ⟨rfl, statusOnly_update st c.id .exhausted⟩
    · rw [if_neg h2]
      by_cases h3 : capHit c.maxUsesPerUser (getUserCouponUsageCount st c.id dto.userId : ℤ) = true
      · rw [if_pos h3]
        exact Or.inl ⟨rfl, statusOnly_refl st⟩
      · rw [if_neg h3]
        refine Or.inr ⟨rfl, rfl, h1, ?_, ?_⟩
        · exact (capHit_eq_false_iff _ _).1 (eq_false_of_ne_true h2)
        · exact (capHit_eq_false_iff _ _).1 (eq_false_of_ne_true h3)
  · rw [if_pos (by simp [h1])]
    exact Or.inl ⟨rfl, statusOnly_expiredStateUpdate now st c⟩

/-- The conditions established by a permitted attempt: these all held in
the store the attempt read. -/
def PermitFacts (now : ℤ) (st : DBState) (dto : ValidateCouponDto) (c : Coupon) : Prop :=
  c.status = .active ∧
  c.minOrderValue ≤ dto.orderValue ∧
  dupOrderCheck st dto.orderId = false ∧
  (c.type = .user_specific →
    c.userId = some dto.userId ∧ getUserCouponUsageCount st c.id dto.userId = 0) ∧
  (c.type = .time_specific → TimeFacts now st dto c) ∧
  orderConflict st dto.orderId = false

/-- Case analysis of one whole validation attempt: either the attempt is
denied or aborted and at most coupon statuses changed in the store, or it
is permitted, all rule conditions held on the store it read, the result
carries the computed discount and final amount, and the store advanced by
exactly the accounting transaction. -/
theorem validateCouponCore_cases (now : ℤ) (ok : Bool) (st : DBState)
    (dto : ValidateCouponDto) :
    ((validateCouponCore now ok st dto).1.valid = false ∧
      StatusOnly st (validateCouponCore now ok st dto).2.2.2)
    ∨ (∃ c, getCouponByCode st dto.code = some c ∧
        PermitFacts now st dto c ∧
        (validateCouponCore now ok st dto).1 =
          { valid := true, coupon := some c,
            discountAmount := some (calculateDiscount dto.orderValue c.discountType
              c.discountValue c.maxDiscountAmount),
            finalAmount := some (dto.orderValue - calculateDiscount dto.orderValue
              c.discountType c.discountValue c.maxDiscountAmount) } ∧
        (validateCouponCore now ok st dto).2.2.2 =
          recordUsageTransaction st c dto
            (calculateDiscount dto.orderValue c.discountType c.discountValue
              c.maxDiscountAmount)) := by
  simp only [validateCouponCore]
  cases hfind : getCouponByCode st dto.code with
  | none =>
    exact Or.inl ⟨rfl, statusOnly_refl st⟩
  | some c =>
    dsimp only
    by_cases hstat : c.status = .active
    case neg =>
      rw [if_pos hstat]
      exact Or.inl ⟨rfl, statusOnly_refl st⟩
    rw [if_neg (by simp [hstat])]
    by_cases hmin : dto.orderValue < c.minOrderValue
    case pos =>
      rw [if_pos hmin]
      exact Or.inl ⟨rfl, statusOnly_refl st⟩
    rw [if_neg hmin]
    by_cases hdup : dupOrderCheck st dto.orderId = true
    case pos =>
      rw [if_pos hdup]
      exact Or.inl ⟨rfl, statusOnly_refl st⟩
    rw [if_neg hdup]
    by_cases htype : c.type = .user_specific
    · rw [if_pos htype]
      by_cases hv : (validateUserSpecificCoupon st c dto).valid = true
      · rw [if_pos hv]
        by_cases hok : (ok && ! orderConflict st dto.orderId) = true
        · rw [if_pos hok]
          refine Or.inr ⟨c, rfl, ?_, rfl, rfl⟩
          obtain ⟨hu1, hu2⟩ := (validateUserSpecificCoupon_valid_iff st c dto).1 hv
          simp only [Bool.and_eq_true, Bool.not_eq_true'] at hok
          exact ⟨hstat, not_lt.1 hmin, eq_false_of_ne_true hdup,
            fun _ => ⟨hu1, hu2⟩, fun ht => absurd (ht.symm.trans htype) (by decide), hok.2⟩
        · rw [if_neg hok]
          exact Or.inl ⟨rfl, statusOnly_refl st⟩
      · rw [if_neg hv]
        exact Or.inl ⟨eq_false_of_ne_true hv, statusOnly_refl st⟩
    · rw [if_neg htype]
      rcases validateTimeSpecificCoupon_cases now st c dto with ⟨hv, hso⟩ | ⟨hv, hst, hfacts⟩
      · rw [if_neg (by simp [hv])]
        exact Or.inl ⟨hv, hso⟩
      · rw [if_pos hv, hst]
        by_cases hok : (ok && ! orderConflict st dto.orderId) = true
        · rw [if_pos hok]
          refine Or.inr ⟨c, rfl, ?_, rfl, rfl⟩
          simp only [Bool.and_eq_true, Bool.not_eq_true'] at hok
          exact ⟨hstat, not_lt.1 hmin, eq_false_of_ne_true hdup,
            fun hu => absurd hu htype, fun _ => hfacts, hok.2⟩
        · rw [if_neg hok]
          exact Or.inl ⟨rfl, statusOnly_refl st⟩

/-- The global store invariant maintained by the public API. -/
structure Inv (st : DBState) : Prop where
  idsNodup : (st.coupons.map (fun c => c.id)).Nodup
  idBound : ∀ c ∈ st.coupons, c.id < st.nextId
  usageBound : ∀ u ∈ st.usage, u.couponId < st.nextId
  userNoCaps : ∀ c ∈ st.coupons, c.type = .user_specific → c.maxTotalUses = none
  capPos : ∀ c ∈ st.coupons, ∀ m, c.maxTotalUses = some m → 1 ≤ m
  capInv : ∀ c ∈ st.coupons, ∀ m, c.maxTotalUses = some m → (c.currentTotalUses : ℤ) ≤ m
  userUsage : ∀ c ∈ st.coupons, c.type = .user_specific →
    ∀ u ∈ st.usage, u.couponId = c.id → some u.userId = c.userId
  userSingle : ∀ c ∈ st.coupons, c.type = .user_specific → usageCountFor st c.id ≤ 1
  orderUnique : ∀ oid : String, countOrder st oid ≤ 1

/-- Two coupon rows of an id-unique store with equal ids are the same row. -/
theorem coupon_id_inj {st : DBState} (h : (st.coupons.map (fun c => c.id)).Nodup)
    {a b : Coupon} (ha : a ∈ st.coupons) (hb : b ∈ st.coupons) (hid : a.id = b.id) :
    a = b :=
  List.inj_on_of_nodup_map h ha hb hid

/-- Status-only updates preserve the store invariant. -/
theorem inv_statusOnly {st st' : DBState} (hso : StatusOnly st st') (h : Inv st) :
    Inv st' := by
  obtain ⟨husage, hlogs, hnext, f, hcoupons⟩ := hso
  have hmem : ∀ c' ∈ st'.coupons, ∃ c ∈ st.coupons, c' = { c with status := f c } := by
    intro c' hc'
    rw [hcoupons] at hc'
    obtain ⟨c, hc, he⟩ := List.mem_map.1 hc'
    exact ⟨c, hc, he.symm⟩
  refine ⟨?_, ?_, ?_, ?_, ?_, ?_, ?_, ?_, ?_⟩
  · rw [hcoupons, List.map_map]
    exact h.idsNodup
  · intro c' hc'
    obtain ⟨c, hc, rfl⟩ := hmem c' hc'
    rw [hnext]
    exact h.idBound c hc
  · intro u hu
    rw [husage] at hu
    rw [hnext]
    exact h.usageBound u hu
  · intro c' hc' ht
    obtain ⟨c, hc, rfl⟩ := hmem c' hc'
    exact h.userNoCaps c hc ht
  · intro c' hc' m hm
    obtain ⟨c, hc, rfl⟩ := hmem c' hc'
    exact h.capPos c hc m hm
  · intro c' hc' m hm
    obtain ⟨c, hc, rfl⟩ := hmem c' hc'
    exact h.capInv c hc m hm
  · intro c' hc' ht u hu hcid
    obtain ⟨c, hc, rfl⟩ := hmem c' hc'
    rw [husage] at hu
    exact h.userUsage c hc ht u hu hcid
  · intro c' hc' ht
    obtain ⟨c, hc, rfl⟩ := hmem c' hc'
    show (st'.usage.filter _).length ≤ 1
    rw [husage]
    exact h.userSingle c hc ht
  · intro oid
    show (st'.usage.filter _).length ≤ 1
    rw [husage]
    exact h.orderUnique oid

/-- The empty store satisfies the invariant. -/
theorem inv_init : Inv { coupons := [], usage := [], logs := [], nextId := 0 } := by
  refine ⟨?_, ?_, ?_, ?_, ?_, ?_, ?_, ?_, ?_⟩ <;>
    simp [usageCountFor, countOrder]

/-- Creating a user-specific coupon preserves the invariant. -/
theorem inv_createUser {st : DBState} (h : Inv st) (code : String)
    (dto : CreateUserSpecificCouponDto) :
    Inv (generateUserSpecificCoupon st code dto) := by
  unfold generateUserSpecificCoupon
  have hfresh : st.nextId ∉ st.coupons.map (fun c => c.id) := by
    intro hmem
    obtain ⟨c, hc, hce⟩ := List.mem_map.1 hmem
    exact absurd hce (Nat.ne_of_lt (h.idBound c hc))
  refine ⟨?_, ?_, ?_, ?_, ?_, ?_, ?_, ?_, ?_⟩
  · simpa using List.Nodup.append h.idsNodup (List.nodup_singleton _)
      (by simpa [List.disjoint_singleton] using hfresh)
  · intro c hc
    rcases List.mem_append.1 hc with hc | hc
    · exact Nat.lt_succ_of_lt (h.idBound c hc)
    · simp at hc
      subst hc
      exact Nat.lt_succ_self _
  · intro u hu
    exact Nat.lt_succ_of_lt (h.usageBound u hu)
  · intro c hc ht
    rcases List.mem_append.1 hc with hc | hc
    · exact h.userNoCaps c hc ht
    · simp at hc
      subst hc
      rfl
  · intro c hc m hm
    rcases List.mem_append.1 hc with hc | hc
    · exact h.capPos c hc m hm
    · simp at hc
      subst hc
      cases hm
  · intro c hc m hm
    rcases List.mem_append.1 hc with hc | hc
    · exact h.capInv c hc m hm
    · simp at hc
      subst hc
      cases hm
  · intro c hc ht u hu hcid
    rcases List.mem_append.1 hc with hc | hc
    · exact h.userUsage c hc ht u hu hcid
    · simp at hc
      subst hc
      exact absurd hcid (Nat.ne_of_lt (h.usageBound u hu))
  · intro c hc ht
    rcases List.mem_append.1 hc with hc | hc
    · exact h.userSingle c hc ht
    · simp at hc
      subst hc
      have hnil : st.usage.filter (fun u => u.couponId == st.nextId) = [] :=
        List.filter_eq_nil_iff.2 (fun u hu => by simpa using Nat.ne_of_lt (h.usageBound u hu))
      simp [usageCountFor, hnil]
  · intro oid
    exact h.orderUnique oid

/-- Creating a time-specific coupon preserves the invariant; the request
passed the creation-side validator, so any stored aggregate cap is a
positive integer. -/
theorem inv_createTime {st st' : DBState} (h : Inv st) (code : String)
    {dto : CreateTimeSpecificCouponDto} (hv : ValidCreateTimeDto dto)
    (hgen : generateTimeSpecificCoupon st code dto = some st') :
    Inv st' := by
  unfold generateTimeSpecificCoupon at hgen
  by_cases hex : (getCouponByCode st code).isSome
  · rw [if_pos hex] at hgen
    cases hgen
  rw [if_neg hex] at hgen
  injection hgen with hgen
  subst hgen
  have hfresh : st.nextId ∉ st.coupons.map (fun c => c.id) := by
    intro hmem
    obtain ⟨c, hc, hce⟩ := List.mem_map.1 hmem
    exact absurd hce (Nat.ne_of_lt (h.idBound c hc))
  refine ⟨?_, ?_, ?_, ?_, ?_, ?_, ?_, ?_, ?_⟩
  · simpa using List.Nodup.append h.idsNodup (List.nodup_singleton _)
      (by simpa [List.disjoint_singleton] using hfresh)
  · intro c hc
    rcases List.mem_append.1 hc with hc | hc
    · exact Nat.lt_succ_of_lt (h.idBound c hc)
    · simp at hc
      subst hc
      exact Nat.lt_succ_self _
  · intro u hu
    exact Nat.lt_succ_of_lt (h.usageBound u hu)
  · intro c hc ht
    rcases List.mem_append.1 hc with hc | hc
    · exact h.userNoCaps c hc ht
    · simp at hc
      subst hc
      cases ht
  · intro c hc m hm
    rcases List.mem_append.1 hc with hc | hc
    · exact h.capPos c hc m hm
    · simp at hc
      subst hc
      cases hmt : dto.maxTotalUses with
      | none => simp [orNullZ, hmt] at hm
      | some m0 =>
        simp only [orNullZ, hmt] at hm
        by_cases h0 : m0 = 0
        · rw [if_pos h0] at hm
          cases hm
        · rw [if_neg h0] at hm
          injection hm with hm
          subst hm
          have := hv.2.2.2.2.2 m0 hmt
          omega
  · intro c hc m hm
    rcases List.mem_append.1 hc with hc | hc
    · exact h.capInv c hc m hm
    · simp at hc
      subst hc
      cases hmt : dto.maxTotalUses with
      | none => simp [orNullZ, hmt] at hm
      | some m0 =>
        simp only [orNullZ, hmt] at hm
        by_cases h0 : m0 = 0
        · rw [if_pos h0] at hm
          cases hm
        · rw [if_neg h0] at hm
          injection hm with hm
          subst hm
          have := hv.2.2.2.2.2 m0 hmt
          dsimp only
          omega
  · intro c hc ht u hu hcid
    rcases List.mem_append.1 hc with hc | hc
    · exact h.userUsage c hc ht u hu hcid
    · simp at hc
      subst hc
      exact absurd hcid (Nat.ne_of_lt (h.usageBound u hu))
  · intro c hc ht
    rcases List.mem_append.1 hc with hc | hc
    · exact h.userSingle c hc ht
    · simp at hc
      subst hc
      cases ht
  · intro oid
    exact h.orderUnique oid

/-- The exhaustion step only touches coupon statuses. -/
theorem statusOnly_maybeExhaust (st : DBState) (c : Coupon) :
    StatusOnly st (maybeExhaust st c) := by
  unfold maybeExhaust
  cases c.maxTotalUses with
  | none => exact statusOnly_refl st
  | some m =>
    dsimp only
    by_cases hx : m ≠ 0 ∧ (c.currentTotalUses : ℤ) + 1 ≥ m
    · rw [if_pos hx]
      exact statusOnly_update st c.id .exhausted
    · rw [if_neg hx]
      exact statusOnly_refl st

/-- Inserting the usage row and incrementing the counter of a permitted
attempt preserves the store invariant. -/
theorem inv_insertInc {now : ℤ} {st : DBState} {dto : ValidateCouponDto}
    {c : Coupon} (h : Inv st) (hc : c ∈ st.coupons)
    (hp : PermitFacts now st dto c) (d : ℚ) :
    Inv (incrementTotalUses (insertUsage st c dto d) c.id) := by
  obtain ⟨hstat, hmin, hdup, huser, htime, hconf⟩ := hp
  have hcoup : (incrementTotalUses (insertUsage st c dto d) c.id).coupons =
      st.coupons.map (fun c0 =>
        if c0.id = c.id then { c0 with currentTotalUses := c0.currentTotalUses + 1 } else c0) := rfl
  have husg : (incrementTotalUses (insertUsage st c dto d) c.id).usage =
      st.usage ++
        [({ couponId := c.id, userId := dto.userId, orderId := dto.orderId,
            orderValue := dto.orderValue, discountApplied := d } : Usage)] := rfl
  have hnid : (incrementTotalUses (insertUsage st c dto d) c.id).nextId = st.nextId := rfl
  have hmem : ∀ c' ∈ (incrementTotalUses (insertUsage st c dto d) c.id).coupons,
      ∃ c0 ∈ st.coupons,
        c' = (if c0.id = c.id then { c0 with currentTotalUses := c0.currentTotalUses + 1 } else c0) := by
    intro c' hc'
    rw [hcoup] at hc'
    obtain ⟨c0, hc0, he⟩ := List.mem_map.1 hc'
    exact ⟨c0, hc0, he.symm⟩
  have hidpres : ∀ c0 : Coupon,
      (if c0.id = c.id then { c0 with currentTotalUses := c0.currentTotalUses + 1 } else c0).id = c0.id := by
    intro c0
    by_cases h0 : c0.id = c.id <;> simp [h0]
  have htypres : ∀ c0 : Coupon,
      (if c0.id = c.id then { c0 with currentTotalUses := c0.currentTotalUses + 1 } else c0).type = c0.type := by
    intro c0
    by_cases h0 : c0.id = c.id <;> simp [h0]
  have hcappres : ∀ c0 : Coupon,
      (if c0.id = c.id then { c0 with currentTotalUses := c0.currentTotalUses + 1 } else c0).maxTotalUses = c0.maxTotalUses := by
    intro c0
    by_cases h0 : c0.id = c.id <;> simp [h0]
  have huidpres : ∀ c0 : Coupon,
      (if c0.id = c.id then { c0 with currentTotalUses := c0.currentTotalUses + 1 } else c0).userId = c0.userId := by
    intro c0
    by_cases h0 : c0.id = c.id <;> simp [h0]
  refine ⟨?_, ?_, ?_, ?_, ?_, ?_, ?_, ?_, ?_⟩
  · rw [hcoup, List.map_map]
    have heq : ((fun c => c.id) ∘ fun c0 =>
        if c0.id = c.id then { c0 with currentTotalUses := c0.currentTotalUses + 1 } else c0) =
        fun c : Coupon => c.id := by
      funext c0
      exact hidpres c0
    rw [heq]
    exact h.idsNodup
  · intro c' hc'
    obtain ⟨c0, hc0, rfl⟩ := hmem c' hc'
    rw [hidpres c0, hnid]
    exact h.idBound c0 hc0
  · intro u hu
    rw [husg] at hu
    rw [hnid]
    rcases List.mem_append.1 hu with hu | hu
    · exact h.usageBound u hu
    · simp at hu
      subst hu
      exact h.idBound c hc
  · intro c' hc' ht
    obtain ⟨c0, hc0, rfl⟩ := hmem c' hc'
    rw [hcappres c0]
    rw [htypres c0] at ht
    exact h.userNoCaps c0 hc0 ht
  · intro c' hc' m hm
    obtain ⟨c0, hc0, rfl⟩ := hmem c' hc'
    rw [hcappres c0] at hm
    exact h.capPos c0 hc0 m hm
  · intro c' hc' m hm
    obtain ⟨c0, hc0, rfl⟩ := hmem c' hc'
    rw [hcappres c0] at hm
    by_cases h0 : c0.id = c.id
    · have hceq : c0 = c := coupon_id_inj h.idsNodup hc0 hc h0
      subst hceq
      rw [if_pos h0]
      cases hct : c0.type with
      | user_specific => rw [h.userNoCaps c0 hc0 hct] at hm; cases hm
      | time_specific =>
        rcases (htime hct).2.1 m hm with hm0 | hlt
        · have := h.capPos c0 hc0 m hm
          omega
        · dsimp only
          push_cast
          omega
    · rw [if_neg h0]
      exact h.capInv c0 hc0 m hm
  · intro c' hc' ht u hu hcid
    obtain ⟨c0, hc0, rfl⟩ := hmem c' hc'
    rw [htypres c0] at ht
    rw [huidpres c0]
    rw [hidpres c0] at hcid
    rw [husg] at hu
    rcases List.mem_append.1 hu with hu | hu
    · exact h.userUsage c0 hc0 ht u hu hcid
    · simp at hu
      subst hu
      dsimp only at hcid
      have hceq : c0 = c := coupon_id_inj h.idsNodup hc0 hc hcid.symm
      subst hceq
      exact ((huser ht).1).symm
  · intro c' hc' ht
    obtain ⟨c0, hc0, rfl⟩ := hmem c' hc'
    rw [htypres c0] at ht
    unfold usageCountFor
    rw [hidpres c0, husg, List.filter_append]
    by_cases h0 : c0.id = c.id
    · have hceq : c0 = c := coupon_id_inj h.idsNodup hc0 hc h0
      subst hceq
      have hzero : st.usage.filter (fun u => u.couponId == c0.id) = [] := by
        have hcnt := (huser ht).2
        have hbound : c0.userId = some dto.userId := (huser ht).1
        unfold getUserCouponUsageCount at hcnt
        have hnil := List.length_eq_zero.1 hcnt
        refine List.filter_eq_nil_iff.2 ?_
        intro u hu hbad
        have hcid : u.couponId = c0.id := by simpa using hbad
        have huid : some u.userId = c0.userId := h.userUsage c0 hc0 ht u hu hcid
        rw [hbound] at huid
        injection huid with huid
        have hin : u ∈ st.usage.filter (fun u => u.couponId == c0.id && u.userId == dto.userId) :=
          List.mem_filter.2 ⟨hu, by simp [hcid, huid]⟩
        rw [hnil] at hin
        cases hin
      rw [hzero]
      simp [h0]
    · have hone : (List.filter (fun u => u.couponId == c0.id)
          [({ couponId := c.id, userId := dto.userId, orderId := dto.orderId,
              orderValue := dto.orderValue, discountApplied := d } : Usage)]) = [] := by
        simp
        intro hbad
        exact absurd hbad.symm h0
      rw [hone, List.append_nil]
      exact h.userSingle c0 hc0 ht
  · intro oid
    unfold countOrder
    rw [husg, List.filter_append]
    cases ho : dto.orderId with
    | none =>
      have hone : (List.filter (fun u => u.orderId == some oid)
          [({ couponId := c.id, userId := dto.userId, orderId := none,
              orderValue := dto.orderValue, discountApplied := d } : Usage)]) = [] := by
        simp
      rw [hone, List.append_nil]
      exact h.orderUnique oid
    | some o =>
      by_cases hoe : o = oid
      · subst hoe
        have hzero : st.usage.filter (fun u => u.orderId == some o) = [] := by
          simp only [orderConflict, ho] at hconf
          refine List.filter_eq_nil_iff.2 ?_
          intro u hu hbad
          have hany : st.usage.any (fun u => u.orderId == some o) = true :=
            List.any_eq_true.2 ⟨u, hu, hbad⟩
          rw [hconf] at hany
          cases hany
        rw [hzero]
        simp [ho]
      · have hone : (List.filter (fun u => u.orderId == some oid)
            [({ couponId := c.id, userId := dto.userId, orderId := some o,
                orderValue := dto.orderValue, discountApplied := d } : Usage)]) = [] := by
          simp [hoe]
        rw [hone, List.append_nil]
        exact h.orderUnique oid

/-- The whole accounting transaction of a permitted attempt preserves the
store invariant. -/
theorem inv_recordUsage {now : ℤ} {st : DBState} {dto : ValidateCouponDto}
    {c : Coupon} (h : Inv st) (hc : c ∈ st.coupons)
    (hp : PermitFacts now st dto c) (d : ℚ) :
    Inv (recordUsageTransaction st c dto d) :=
  inv_statusOnly (statusOnly_maybeExhaust _ c) (inv_insertInc h hc hp d)

/-- The invariant does not mention the audit log buffer. -/
theorem inv_logs {st : DBState} (h : Inv st) (l : List ValidationLog) :
    Inv { st with logs := l } :=
  ⟨h.idsNodup, h.idBound, h.usageBound, h.userNoCaps, h.capPos, h.capInv,
    h.userUsage, h.userSingle, h.orderUnique⟩

/-- A coupon found by code is a row of the store. -/
theorem getCouponByCode_mem {st : DBState} {code : String} {c : Coupon}
    (h : getCouponByCode st code = some c) : c ∈ st.coupons :=
  List.mem_of_find?_eq_some h

/-- A coupon found by code carries that code. -/
theorem getCouponByCode_code {st : DBState} {code : String} {c : Coupon}
    (h : getCouponByCode st code = some c) : c.code = code := by
  have := List.find?_some h
  simpa using this

/-- One whole validation call preserves the store invariant. -/
theorem inv_validate {st : DBState} (h : Inv st) (now : ℤ) (commitOk : Bool)
    (elapsed : Nat) (dto : ValidateCouponDto) :
    Inv (validateCoupon now commitOk elapsed st dto).2 := by
  have h1 : Inv (validateCouponCore now commitOk st dto).2.2.2 := by
    rcases validateCouponCore_cases now commitOk st dto with ⟨-, hso⟩ | ⟨c, hfind, hperm, -, hst⟩
    · exact inv_statusOnly hso h
    · rw [hst]
      exact inv_recordUsage h (getCouponByCode_mem hfind) hperm _
  exact inv_logs h1 _

/-- Every store reachable through the public API satisfies the invariant. -/
theorem reachable_inv {st : DBState} (h : Reachable st) : Inv st := by
  induction h with
  | init => exact inv_init
  | createUser st code dto _ hv hfresh ih => exact inv_createUser ih code dto
  | createTime st st' code dto _ hv hgen ih => exact inv_createTime ih code hv hgen
  | validate st now commitOk elapsed dto _ hv ih => exact inv_validate ih now commitOk elapsed dto

/-- Unfolding a full validation call from its core. -/
theorem validateCoupon_of_core {now : ℤ} {commitOk : Bool} {elapsed : Nat}
    {st st1 : DBState} {dto : ValidateCouponDto} {res : ValidationResult}
    {thr : Bool} {cid : Option Nat}
    (h : validateCouponCore now commitOk st dto = (res, thr, cid, st1)) :
    validateCoupon now commitOk elapsed st dto =
      ((if thr then Except.error "Failed to validate coupon" else Except.ok res),
        { st1 with logs := st1.logs ++ [mkLog dto res elapsed cid] }) := by
  unfold validateCoupon
  rw [h]

/-- An attempt that passes the existence, status, minimum-order and
duplicate-order gates reaches the policy stage; on a policy denial the
core returns the policy result and state. -/
theorem validateCouponCore_policy_deny {now : ℤ} {commitOk : Bool}
    {st st1 : DBState} {dto : ValidateCouponDto} {c : Coupon}
    {vres : ValidationResult}
    (hfind : getCouponByCode st dto.code = some c)
    (hstat : c.status = .active)
    (hmin : ¬ dto.orderValue < c.minOrderValue)
    (hdup : dupOrderCheck st dto.orderId = false)
    (htypeval : (if c.type = .user_specific then (validateUserSpecificCoupon st c dto, st)
      else validateTimeSpecificCoupon now st c dto) = (vres, st1))
    (hv : vres.valid = false) :
    validateCouponCore now commitOk st dto = (vres, false, some c.id, st1) := by
  simp only [validateCouponCore, hfind]
  rw [if_neg (by simp [hstat]), if_neg hmin, if_neg (by simp [hdup]), htypeval]
  dsimp only
  rw [if_neg (by simp [hv])]

/-- An attempt on an active coupon that passes existence, status and
minimum-order but carries an already-used non-empty orderId is denied at
the duplicate-order gate. -/
theorem validateCouponCore_dup_deny {now : ℤ} {commitOk : Bool}
    {st : DBState} {dto : ValidateCouponDto} {c : Coupon}
    (hfind : getCouponByCode st dto.code = some c)
    (hstat : c.status = .active)
    (hmin : ¬ dto.orderValue < c.minOrderValue)
    (hdup : dupOrderCheck st dto.orderId = true) :
    validateCouponCore now commitOk st dto =
      ({ valid := false, reason := some "This order has already used a coupon" },
        false, some c.id, st) := by
  simp only [validateCouponCore, hfind]
  rw [if_neg (by simp [hstat]), if_neg hmin, if_pos (by simp [hdup])]

/-- An attempt that passes every gate and whose commit succeeds: the core
returns the permitted result and applies the accounting transaction. -/
theorem validateCouponCore_permit {now : ℤ} {commitOk : Bool}
    {st st1 : DBState} {dto : ValidateCouponDto} {c : Coupon}
    {vres : ValidationResult}
    (hfind : getCouponByCode st dto.code = some c)
    (hstat : c.status = .active)
    (hmin : ¬ dto.orderValue < c.minOrderValue)
    (hdup : dupOrderCheck st dto.orderId = false)
    (htypeval : (if c.type = .user_specific then (validateUserSpecificCoupon st c dto, st)
      else validateTimeSpecificCoupon now st c dto) = (vres, st1))
    (hv : vres.valid = true)
    (hok : commitOk = true) (hconf : orderConflict st1 dto.orderId = false) :
    validateCouponCore now commitOk st dto =
      ({ valid := true, coupon := some c,
         discountAmount := some (calculateDiscount dto.orderValue c.discountType
           c.discountValue c.maxDiscountAmount),
         finalAmount := some (dto.orderValue - calculateDiscount dto.orderValue
           c.discountType c.discountValue c.maxDiscountAmount) },
        false, some c.id,
        recordUsageTransaction st1 c dto (calculateDiscount dto.orderValue
          c.discountType c.discountValue c.maxDiscountAmount)) := by
  simp only [validateCouponCore, hfind]
  rw [if_neg (by simp [hstat]), if_neg hmin, if_neg (by simp [hdup]), htypeval]
  dsimp only
  rw [if_pos hv, if_pos (by simp [hok, hconf])]

/-- The time-specific stage on a coupon whose validUntil lies strictly in
the past: denied as expired and the status set to expired. -/
theorem validateTimeSpecificCoupon_expired {now : ℤ} {st : DBState} {c : Coupon}
    {dto : ValidateCouponDto} {u : ℤ}
    (hu : c.validUntil = some u) (hnow : u < now) :
    validateTimeSpecificCoupon now st c dto =
      ({ valid := false, reason := some "Coupon has expired or is not yet valid" },
        updateCouponStatus st c.id .expired) := by
  have hrange : isWithinValidDateRange c.validFrom c.validUntil now = false := by
    cases c.validFrom with
    | none => simp [isWithinValidDateRange]
    | some f =>
      simp [isWithinValidDateRange, hu]
      omega
  unfold validateTimeSpecificCoupon
  rw [if_pos (by simp [hrange])]
  unfold expiredStateUpdate
  rw [hu]
  dsimp only
  rw [if_pos (by omega : now > u)]

/-- The time-specific stage on an in-window coupon whose aggregate counter
has reached a truthy aggregate cap: denied with the usage-limit reason and
the status set to exhausted. -/
theorem validateTimeSpecificCoupon_limit {now : ℤ} {st : DBState} {c : Coupon}
    {dto : ValidateCouponDto} {m : ℤ}
    (hrange : isWithinValidDateRange c.validFrom c.validUntil now = true)
    (hm : c.maxTotalUses = some m) (hm0 : m ≠ 0)
    (hge : (c.currentTotalUses : ℤ) ≥ m) :
    validateTimeSpecificCoupon now st c dto =
      ({ valid := false, reason := some "Coupon usage limit reached" },
        updateCouponStatus st c.id .exhausted) := by
  unfold validateTimeSpecificCoupon
  rw [if_neg (by simp [hrange])]
  rw [if_pos (by simp [capHit, hm, hm0, hge])]

/-- The user-specific stage for the bound user with a prior redemption:
denied with the already-used reason. -/
theorem validateUserSpecificCoupon_alreadyUsed {st : DBState} {c : Coupon}
    {dto : ValidateCouponDto}
    (hbound : c.userId = some dto.userId)
    (hcnt : getUserCouponUsageCount st c.id dto.userId > 0) :
    validateUserSpecificCoupon st c dto =
      { valid := false, reason := some "You have already used this coupon" } := by
  unfold validateUserSpecificCoupon
  rw [if_neg (by simp [hbound]), if_pos hcnt]

/-- Rows of an updateCouponStatus result with the targeted id carry the
new status. -/
theorem updateCouponStatus_mem_status {st : DBState} {i : Nat} {s : CouponStatus}
    {c' : Coupon} (h : c' ∈ (updateCouponStatus st i s).coupons) (hid : c'.id = i) :
    c'.status = s := by
  obtain ⟨c0, hc0, he⟩ := List.mem_map.1 h
  by_cases h0 : c0.id = i
  · rw [if_pos h0] at he
    rw [← he]
  · rw [if_neg h0] at he
    subst he
    exact absurd hid h0

/-- The shape of a permitted result: the coupon that was found, the
computed discount, and final amount equal to order amount minus discount. -/
theorem validateCoupon_valid_shape {now : ℤ} {commitOk : Bool} {elapsed : Nat}
    {st st' : DBState} {dto : ValidateCouponDto} {r : ValidationResult}
    (h : validateCoupon now commitOk elapsed st dto = (Except.ok r, st'))
    (hv : r.valid = true) :
    ∃ c, getCouponByCode st dto.code = some c ∧ PermitFacts now st dto c ∧
      r = { valid := true, coupon := some c,
            discountAmount := some (calculateDiscount dto.orderValue c.discountType
              c.discountValue c.maxDiscountAmount),
            finalAmount := some (dto.orderValue - calculateDiscount dto.orderValue
              c.discountType c.discountValue c.maxDiscountAmount) } := by
  have h1 := congrArg Prod.fst h
  simp only [validateCoupon] at h1
  by_cases hthr : (validateCouponCore now commitOk st dto).2.1 = true
  · rw [if_pos hthr] at h1
    cases h1
  · rw [if_neg hthr] at h1
    injection h1 with h1
    rcases validateCouponCore_cases now commitOk st dto with ⟨hvf, -⟩ | ⟨c, hfind, hperm, hres, -⟩
    · rw [h1] at hvf
      rw [hv] at hvf
      cases hvf
    · exact ⟨c, hfind, hperm, h1 ▸ hres⟩

/-- The words of the C4 claim on discount computation: percentage gives
orderAmount times value over 100, clamped to the cap whenever a cap is
present; fixed gives min of value and orderAmount; the result is rounded
to two decimals half-up. -/
def claimDiscount (orderValue : ℚ) (discountType : DiscountType)
    (discountValue : ℚ) (maxDiscountAmount : Option ℚ) : ℚ :=
  roundTo2 (match discountType with
    | .percentage =>
      match maxDiscountAmount with
      | some m => min (orderValue * discountValue / 100) m
      | none => orderValue * discountValue / 100
    | .fixed => min discountValue orderValue)

/-- C4 counterexample: with a configured cap of 0, the source does not
clamp (JS truthiness skips the guard), while the claim formula clamps the
50 percent discount on order 100 down to 0. -/
theorem c4_zero_cap_counterexample :
    calculateDiscount 100 .percentage 50 (some 0) = 50 ∧
    claimDiscount 100 .percentage 50 (some 0) = 0 ∧
    (50 : ℚ) ≠ 0 := by
  refine ⟨?_, ?_, by norm_num⟩ <;>
    norm_num [calculateDiscount, claimDiscount, roundTo2, jsRound]

/-- C4 (amended): for every order amount, discount kind, value and
optional cap, as long as any configured cap is nonzero (a zero cap is
treated by the source as not configured), the computed discount equals the
claim formula; the two worked examples of the claim hold; and every
permitted validation reports final amount equal to order amount minus the
computed discount. -/
theorem c4_discount_computation :
    (∀ (o v : ℚ) (t : DiscountType) (cap : Option ℚ),
      (∀ m, cap = some m → m ≠ 0) →
      calculateDiscount o t v cap = claimDiscount o t v cap)
    ∧ calculateDiscount 100 .fixed 30 none = 30
    ∧ (100 : ℚ) - calculateDiscount 100 .fixed 30 none = 70
    ∧ calculateDiscount 1000 .percentage 20 (some 150) = 150
    ∧ (1000 : ℚ) - calculateDiscount 1000 .percentage 20 (some 150) = 850
    ∧ (∀ (now : ℤ) (commitOk : Bool) (elapsed : Nat) (st st' : DBState)
        (dto : ValidateCouponDto) (r : ValidationResult),
        validateCoupon now commitOk elapsed st dto = (Except.ok r, st') →
        r.valid = true →
        ∃ d, r.discountAmount = some d ∧ r.finalAmount = some (dto.orderValue - d)) := by
  refine ⟨?_, ?_, ?_, ?_, ?_, ?_⟩
  · intro o v t cap hcap
    cases t with
    | fixed => cases cap <;> rfl
    | percentage =>
      cases cap with
      | none => rfl
      | some m =>
        have hm0 : m ≠ 0 := hcap m rfl
        unfold calculateDiscount claimDiscount
        dsimp only
        congr 1
        by_cases hgt : o * v / 100 > m
        · rw [if_pos ⟨hm0, hgt⟩, min_eq_right (le_of_lt hgt)]
        · rw [if_neg (by tauto), min_eq_left (not_lt.1 hgt)]
  · norm_num [calculateDiscount, roundTo2, jsRound]
  · norm_num [calculateDiscount, roundTo2, jsRound]
  · norm_num [calculateDiscount, roundTo2, jsRound]
  · norm_num [calculateDiscount, roundTo2, jsRound]
  · intro now commitOk elapsed st st' dto r h hv
    obtain ⟨c, -, -, hr⟩ := validateCoupon_valid_shape h hv
    subst hr
    exact ⟨_, rfl, rfl⟩

/-- C4 witness: the amended formula applied at the two worked examples. -/
theorem c4_discount_computation_witness :
    calculateDiscount 1000 .percentage 20 (some 150) =
      claimDiscount 1000 .percentage 20 (some 150) ∧
    calculateDiscount 100 .fixed 30 none = claimDiscount 100 .fixed 30 none ∧
    claimDiscount 1000 .percentage 20 (some 150) = 150 := by
  refine ⟨c4_discount_computation.1 1000 20 .percentage (some 150) ?_,
    c4_discount_computation.1 100 30 .fixed none ?_, ?_⟩
  · intro m hm
    injection hm with hm
    rw [← hm]
    norm_num
  · intro m hm
    cases hm
  · norm_num [claimDiscount, roundTo2, jsRound]

/-- The half-up two-decimal rounding loses less than 1/200. -/
theorem roundTo2_gt (x : ℚ) : x - 1 / 200 < roundTo2 x := by
  unfold roundTo2 jsRound
  have h2 : (x * 100 + 1 / 2) - 1 < (⌊x * 100 + 1 / 2⌋ : ℚ) := Int.sub_one_lt_floor _
  linarith

/-- C10 counterexample: a percentage coupon with no cap and discountValue
greater than 100 for which the computed discount does NOT exceed the order
amount: value 100.5 on order amount 0.001 rounds the discount down to 0,
and the final amount 0.001 is not negative. -/
theorem c10_small_order_counterexample :
    (201 : ℚ) / 2 > 100 ∧
    calculateDiscount (1 / 1000) .percentage (201 / 2) none = 0 ∧
    ¬ calculateDiscount (1 / 1000) .percentage (201 / 2) none > 1 / 1000 ∧
    ¬ ((1 : ℚ) / 1000 - calculateDiscount (1 / 1000) .percentage (201 / 2) none < 0) := by
  refine ⟨by norm_num, ?_, ?_, ?_⟩ <;>
    norm_num [calculateDiscount, roundTo2, jsRound]

/-- C10 (amended): percentage discounts are not clamped to the order
amount: for every percentage coupon with no configured cap, discountValue
at least 101 and order amount at least 1, the computed discount strictly
exceeds the order amount, and the final amount reported by a permitted
validation with such a coupon is negative. -/
theorem c10_percentage_exceeds_order :
    (∀ o v : ℚ, 1 ≤ o → 101 ≤ v →
      calculateDiscount o .percentage v none > o ∧
      o - calculateDiscount o .percentage v none < 0)
    ∧ (∀ (now : ℤ) (commitOk : Bool) (elapsed : Nat) (st st' : DBState)
        (dto : ValidateCouponDto) (r : ValidationResult) (c : Coupon),
        validateCoupon now commitOk elapsed st dto = (Except.ok r, st') →
        r.valid = true →
        getCouponByCode st dto.code = some c →
        c.discountType = .percentage → c.maxDiscountAmount = none →
        101 ≤ c.discountValue → 1 ≤ dto.orderValue →
        ∃ f, r.finalAmount = some f ∧ f < 0) := by
  have hmain : ∀ o v : ℚ, 1 ≤ o → 101 ≤ v →
      calculateDiscount o .percentage v none > o := by
    intro o v ho hv
    have hx : o + 1 / 100 ≤ o * v / 100 := by
      have h1 : o * 101 ≤ o * v :=
        mul_le_mul_of_nonneg_left hv (by linarith)
      linarith
    have h2 := roundTo2_gt (o * v / 100)
    show o < roundTo2 (o * v / 100)
    linarith
  refine ⟨fun o v ho hv => ⟨hmain o v ho hv, by have := hmain o v ho hv; linarith⟩, ?_⟩
  intro now commitOk elapsed st st' dto r c h hv hfind htype hcap hval hord
  obtain ⟨c2, hfind2, -, hr⟩ := validateCoupon_valid_shape h hv
  rw [hfind] at hfind2
  injection hfind2 with hc2
  subst hc2
  subst hr
  refine ⟨_, rfl, ?_⟩
  rw [htype, hcap]
  have := hmain dto.orderValue c.discountValue hord hval
  linarith

/-- C10 witness: the amended bound applied at order 100 with value 150. -/
theorem c10_percentage_exceeds_order_witness :
    calculateDiscount 100 .percentage 150 none > 100 ∧
    (100 : ℚ) - calculateDiscount 100 .percentage 150 none < 0 :=
  c10_percentage_exceeds_order.1 100 150 (by norm_num) (by norm_num)

/-- A throwing validation attempt leaves the result variable at the value
the catch block sets: invalid with reason Validation failed. -/
theorem validateCouponCore_threw (now : ℤ) (commitOk : Bool) (st : DBState)
    (dto : ValidateCouponDto) :
    (validateCouponCore now commitOk st dto).2.1 = true →
    (validateCouponCore now commitOk st dto).1 =
      { valid := false, reason := some "Validation failed" } := by
  simp only [validateCouponCore]
  cases hfind : getCouponByCode st dto.code with
  | none => intro h; cases h
  | some c =>
    dsimp only
    by_cases hstat : c.status = .active
    case neg =>
      rw [if_pos hstat]
      intro h
      cases h
    rw [if_neg (by simp [hstat])]
    by_cases hmin : dto.orderValue < c.minOrderValue
    case pos =>
      rw [if_pos hmin]
      intro h
      cases h
    rw [if_neg hmin]
    by_cases hdup : dupOrderCheck st dto.orderId = true
    case pos =>
      rw [if_pos hdup]
      intro h
      cases h
    rw [if_neg hdup]
    by_cases htype : c.type = .user_specific
    · rw [if_pos htype]
      by_cases hv : (validateUserSpecificCoupon st c dto).valid = true
      · rw [if_pos hv]
        by_cases hok : (commitOk && ! orderConflict st dto.orderId) = true
        · rw [if_pos hok]
          intro h
          cases h
        · rw [if_neg hok]
          intro h
          rfl
      · rw [if_neg hv]
        intro h
        cases h
    · rw [if_neg htype]
      by_cases hv : (validateTimeSpecificCoupon now st c dto).1.valid = true
      · rw [if_pos hv]
        by_cases hok : (commitOk && ! orderConflict (validateTimeSpecificCoupon now st c dto).2 dto.orderId) = true
        · rw [if_pos hok]
          intro h
          cases h
        · rw [if_neg hok]
          intro h
          rfl
      · rw [if_neg hv]
        intro h
        cases h

/-- The accounting transaction does not touch the audit log buffer. -/
theorem recordUsage_logs (st : DBState) (c : Coupon) (dto : ValidateCouponDto)
    (d : ℚ) : (recordUsageTransaction st c dto d).logs = st.logs :=
  (statusOnly_maybeExhaust (incrementTotalUses (insertUsage st c dto d) c.id) c).2.1

/-- No branch of the validation core touches the audit log buffer. -/
theorem validateCouponCore_logs (now : ℤ) (commitOk : Bool) (st : DBState)
    (dto : ValidateCouponDto) :
    (validateCouponCore now commitOk st dto).2.2.2.logs = st.logs := by
  rcases validateCouponCore_cases now commitOk st dto with ⟨-, hso⟩ | ⟨c, -, -, -, hst⟩
  · exact hso.2.1
  · rw [hst]
    exact recordUsage_logs st c dto _

/-- C8 (confirmed): every call to validateCoupon enqueues exactly one
validation-log entry, recording the request facts, the elapsed time, and
the outcome; when the call aborts with the internal error the entry
records the attempt as invalid with the Validation failed reason. -/
theorem c8_always_enqueues_one_log (now : ℤ) (commitOk : Bool) (elapsed : Nat)
    (st : DBState) (dto : ValidateCouponDto) :
    ∃ e : ValidationLog,
      (validateCoupon now commitOk elapsed st dto).2.logs = st.logs ++ [e] ∧
      e.couponCode = dto.code ∧
      e.userId = some dto.userId ∧
      e.orderId = dto.orderId ∧
      e.orderValue = some dto.orderValue ∧
      e.responseTimeMs = some elapsed ∧
      e.isValid = (match (validateCoupon now commitOk elapsed st dto).1 with
        | Except.ok r => r.valid
        | Except.error _ => false) ∧
      e.validationReason = (match (validateCoupon now commitOk elapsed st dto).1 with
        | Except.ok r => if r.valid then none else r.reason
        | Except.error _ => some "Validation failed") := by
  refine ⟨mkLog dto (validateCouponCore now commitOk st dto).1 elapsed
    (validateCouponCore now commitOk st dto).2.2.1, ?_, rfl, rfl, rfl, rfl, rfl, ?_, ?_⟩
  · show ({ (validateCouponCore now commitOk st dto).2.2.2 with
      logs := (validateCouponCore now commitOk st dto).2.2.2.logs ++ [_] } : DBState).logs = _
    rw [validateCouponCore_logs]
  · show (validateCouponCore now commitOk st dto).1.valid = _
    by_cases hthr : (validateCouponCore now commitOk st dto).2.1 = true
    · have hres := validateCouponCore_threw now commitOk st dto hthr
      have hfst : (validateCoupon now commitOk elapsed st dto).1 =
          Except.error "Failed to validate coupon" := by
        simp only [validateCoupon]
        rw [if_pos hthr]
      rw [hfst, hres]
    · have hfst : (validateCoupon now commitOk elapsed st dto).1 =
          Except.ok (validateCouponCore now commitOk st dto).1 := by
        simp only [validateCoupon]
        rw [if_neg hthr]
      rw [hfst]
  · show (if (validateCouponCore now commitOk st dto).1.valid then none
      else (validateCouponCore now commitOk st dto).1.reason) = _
    by_cases hthr : (validateCouponCore now commitOk st dto).2.1 = true
    · have hres := validateCouponCore_threw now commitOk st dto hthr
      have hfst : (validateCoupon now commitOk elapsed st dto).1 =
          Except.error "Failed to validate coupon" := by
        simp only [validateCoupon]
        rw [if_pos hthr]
      rw [hfst, hres]
      rfl
    · have hfst : (validateCoupon now commitOk elapsed st dto).1 =
          Except.ok (validateCouponCore now commitOk st dto).1 := by
        simp only [validateCoupon]
        rw [if_neg hthr]
      rw [hfst]

/-- C7 (confirmed): when the batched write of a flush fails, the failed
batch is PREPENDED to the live buffer: the buffer becomes the failed batch
followed by the entries enqueued during the flush, no entry is lost, the
ghost history gains nothing (no double write), and processing ends with no
error surfaced to any caller. -/
theorem c7_flush_failure_prepends {α : Type} (s : QueueState α) (b : List α)
    (h : s.inflight = some b) :
    (qFlushEnd s false).queue = b ++ s.queue ∧
    (qFlushEnd s false).inflight = none ∧
    (∀ e : α, e ∈ b ∨ e ∈ s.queue → e ∈ (qFlushEnd s false).queue) ∧
    (qFlushEnd s false).attempted = s.attempted := by
  have hred : qFlushEnd s false = { s with inflight := none, queue := b ++ s.queue } := by
    unfold qFlushEnd
    rw [h]
    rfl
  rw [hred]
  refine ⟨rfl, rfl, ?_, rfl⟩
  intro e he
  simpa using he

/-- A concrete batcher state whose flush of batch 1, 2 is in flight while
entry 3 sits in the live buffer. -/
def qC7state : QueueState Nat := ⟨[3], some [1, 2], true, [[1, 2]]⟩

/-- C7 witness: a concrete failing flush with batch 1, 2 and one entry
enqueued during the flush. -/
theorem c7_flush_failure_prepends_witness :
    (qFlushEnd qC7state false).queue = [1, 2] ++ [3] ∧
    (qFlushEnd qC7state false).inflight = none ∧
    (∀ e : Nat, e ∈ [1, 2] ∨ e ∈ [3] → e ∈ (qFlushEnd qC7state false).queue) ∧
    (qFlushEnd qC7state false).attempted = [[1, 2]] :=
  c7_flush_failure_prepends qC7state [1, 2] rfl

/-- C6 counterexample: shutdown called while a flush is in flight. One
entry was enqueued and swapped out by a timer flush; a second entry is
enqueued during that flush; shutdown then returns with the buffer still
holding the second entry, which was never part of any attempted write,
even though the final write succeeds. -/
theorem c6_shutdown_counterexample :
    (qShutdown (qAdd (qFlushBegin (qAdd (qInit Nat) 1)) 2) true).queue = [2] ∧
    (qShutdown (qAdd (qFlushBegin (qAdd (qInit Nat) 1)) 2) true).queue ≠ [] ∧
    (∀ b ∈ (qShutdown (qAdd (qFlushBegin (qAdd (qInit Nat) 1)) 2) true).attempted,
      2 ∉ b) := by
  decide

/-- C6 (amended): shutdown disables the timer; when NO flush is in
progress it swaps the whole buffer into one final attempted write, after
which the buffer is empty if the write succeeded and holds exactly the
failed batch otherwise; when a flush IS already in progress the final
flush is skipped at its guard and shutdown changes nothing but the timer,
leaving entries enqueued during the in-flight flush unattempted. -/
theorem c6_shutdown_drain {α : Type} (s : QueueState α) (ok : Bool) :
    (s.inflight = none → s.queue ≠ [] →
      (qShutdown s ok).attempted = s.attempted ++ [s.queue] ∧
      (qShutdown s ok).queue = (if ok = true then [] else s.queue) ∧
      (qShutdown s ok).inflight = none ∧
      (qShutdown s ok).timerOn = false)
    ∧ (s.inflight = none → s.queue = [] →
      qShutdown s ok = { s with timerOn := false })
    ∧ (∀ b, s.inflight = some b →
      qShutdown s ok = { s with timerOn := false }) := by
  refine ⟨?_, ?_, ?_⟩
  · intro hin hq
    unfold qShutdown
    rw [if_neg (by simp [hin])]
    have h1 : qFlushBegin { s with timerOn := false } =
        { s with
            timerOn := false
            inflight := some s.queue
            queue := []
            attempted := s.attempted ++ [s.queue] } := by
      unfold qFlushBegin
      rw [if_neg (by simp [hin, List.isEmpty_iff, hq])]
    rw [h1]
    unfold qFlushEnd
    dsimp only
    cases ok <;> simp
  · intro hin hq
    unfold qShutdown
    rw [if_neg (by simp [hin])]
    have h1 : qFlushBegin { s with timerOn := false } = { s with timerOn := false } := by
      unfold qFlushBegin
      rw [if_pos (by simp [hq])]
    rw [h1]
    unfold qFlushEnd
    dsimp only
    rw [hin]
  · intro b hb
    unfold qShutdown
    rw [if_pos (by simp [hb])]

/-- A concrete idle batcher state with two buffered entries. -/
def qC6state : QueueState Nat := ⟨[1, 2], none, true, []⟩

/-- C6 witness: the amended drain behaviour at a concrete idle state with
two buffered entries, for a successful and for a failing final write. -/
theorem c6_shutdown_drain_witness :
    ((qShutdown qC6state true).attempted = [] ++ [[1, 2]] ∧
      (qShutdown qC6state true).queue = (if true = true then [] else [1, 2]) ∧
      (qShutdown qC6state true).inflight = none ∧
      (qShutdown qC6state true).timerOn = false) ∧
    (qShutdown qC6state false).queue = (if false = true then [] else [1, 2]) :=
  ⟨(c6_shutdown_drain qC6state true).1 rfl (by decide),
    ((c6_shutdown_drain qC6state false).1 rfl (by decide)).2.1⟩

/-- Eliminating a validation call that returned a result: the core did not
throw, its result is the returned one, and the final store is the core
store with the one log entry appended. -/
theorem validateCoupon_ok_elim {now : ℤ} {commitOk : Bool} {elapsed : Nat}
    {st st' : DBState} {dto : ValidateCouponDto} {r : ValidationResult}
    (h : validateCoupon now commitOk elapsed st dto = (Except.ok r, st')) :
    (validateCouponCore now commitOk st dto).1 = r ∧
    (validateCouponCore now commitOk st dto).2.1 = false ∧
    st' = { (validateCouponCore now commitOk st dto).2.2.2 with
      logs := (validateCouponCore now commitOk st dto).2.2.2.logs ++
        [mkLog dto r elapsed (validateCouponCore now commitOk st dto).2.2.1] } := by
  have h1 := congrArg Prod.fst h
  have h2 := congrArg Prod.snd h
  simp only [validateCoupon] at h1 h2
  by_cases hthr : (validateCouponCore now commitOk st dto).2.1 = true
  · rw [if_pos hthr] at h1
    cases h1
  · rw [if_neg hthr] at h1
    injection h1 with h1
    refine ⟨h1, eq_false_of_ne_true hthr, ?_⟩
    rw [← h2, h1]

/-- The list of aggregate counters of the coupon rows carrying a given id
(a singleton in any id-unique store). -/
def usesOf (st : DBState) (cid : Nat) : List Nat :=
  st.coupons.filterMap (fun c => if c.id = cid then some c.currentTotalUses else none)

/-- Status-only updates do not change any aggregate counter. -/
theorem usesOf_statusOnly {st st' : DBState} (h : StatusOnly st st') (cid : Nat) :
    usesOf st' cid = usesOf st cid := by
  obtain ⟨-, -, -, f, hf⟩ := h
  unfold usesOf
  rw [hf, List.filterMap_map]
  rfl

/-- Incrementing the counter of the rows with a given id adds one to each
entry of usesOf at that id. -/
theorem usesOf_increment (st : DBState) (cid : Nat) :
    usesOf (incrementTotalUses st cid) cid = (usesOf st cid).map (· + 1) := by
  show (st.coupons.map _).filterMap _ = _
  rw [List.filterMap_map]
  unfold usesOf
  induction st.coupons with
  | nil => rfl
  | cons a l ih =>
    by_cases ha : a.id = cid <;>
      simp only [List.filterMap_cons, Function.comp_apply, ha, if_pos, if_neg, ih] <;>
      simp [ha, ih]

/-- The accounting transaction advances the aggregate counter of the
redeemed coupon by exactly one. -/
theorem usesOf_recordUsage (st : DBState) (c : Coupon) (dto : ValidateCouponDto)
    (d : ℚ) :
    usesOf (recordUsageTransaction st c dto d) c.id = (usesOf st c.id).map (· + 1) := by
  unfold recordUsageTransaction
  rw [usesOf_statusOnly (statusOnly_maybeExhaust _ c), usesOf_increment]
  rfl

/-! Concrete stores and runs used by witnesses and counterexamples. -/

/-- The empty store. -/
def stEmptyS : DBState := { coupons := [], usage := [], logs := [], nextId := 0 }

/-- Creation request for a user-specific coupon bound to alice. -/
def createAliceDto : CreateUserSpecificCouponDto :=
  { userId := "alice", discountType := .fixed, discountValue := 10,
    maxDiscountAmount := none, minOrderValue := none }

/-- The user-specific coupon row created from createAliceDto. -/
def couponUser : Coupon :=
  { id := 0
    code := "USER-1"
    type := .user_specific
    discountType := .fixed
    discountValue := 10
    maxDiscountAmount := none
    minOrderValue := 0
    status := .active
    userId := some "alice"
    validFrom := none
    validUntil := none
    maxUsesPerUser := none
    maxTotalUses := none
    currentTotalUses := 0 }

/-- The alice coupon after one redemption. -/
def couponUser1 : Coupon := { couponUser with currentTotalUses := 1 }

/-- The store holding just the alice coupon. -/
def stUser : DBState := { coupons := [couponUser], usage := [], logs := [], nextId := 1 }

/-- Validation request by alice against her coupon with order O1. -/
def aliceDto : ValidateCouponDto :=
  { code := "USER-1", userId := "alice", orderId := some "O1", orderValue := 100 }

/-- The permitted result of the alice run. -/
def resAlice : ValidationResult :=
  { valid := true, coupon := some couponUser,
    discountAmount := some 10, finalAmount := some 90 }

/-- The usage row committed by the alice run. -/
def usageAlice : Usage :=
  { couponId := 0, userId := "alice", orderId := some "O1",
    orderValue := 100, discountApplied := 10 }

/-- The audit entry of the alice run. -/
def logAlice : ValidationLog :=
  { couponCode := "USER-1"
    userId := some "alice"
    orderId := some "O1"
    orderValue := some 100
    isValid := true
    validationReason := none
    discountApplied := some 10
    finalAmount := some 90
    responseTimeMs := some 0
    couponId := some 0 }

/-- The store after the alice run. -/
def stAfterAlice : DBState :=
  { coupons := [couponUser1]
    usage := [usageAlice]
    logs := [logAlice]
    nextId := 1 }

/-- The alice run evaluated. -/
theorem alice_step : validateCoupon 0 true 0 stUser aliceDto = (Except.ok resAlice, stAfterAlice) := by
  norm_num [validateCoupon, validateCouponCore, getCouponByCode, stUser, couponUser,
    couponUser1, aliceDto, List.find?, isOrderAlreadyUsed, validateUserSpecificCoupon,
    getUserCouponUsageCount, orderConflict, dupOrderCheck, calculateDiscount, roundTo2,
    jsRound, CouponStatus.str, recordUsageTransaction, insertUsage, incrementTotalUses,
    maybeExhaust, mkLog, resAlice, stAfterAlice, usageAlice, logAlice, updateCouponStatus]

/-- The alice coupon store is reachable through the creation endpoint. -/
theorem reachable_stUser : Reachable stUser := by
  have hv : ValidCreateUserDto createAliceDto := by
    refine ⟨by decide, by decide, by decide, ?_, ?_⟩ <;> (intro x hx; cases hx)
  have h := Reachable.createUser stEmptyS "USER-1" createAliceDto Reachable.init hv rfl
  have he : generateUserSpecificCoupon stEmptyS "USER-1" createAliceDto = stUser := rfl
  rwa [he] at h

/-- The post-alice store is reachable through the validate endpoint. -/
theorem reachable_stAfterAlice : Reachable stAfterAlice := by
  have hv : ValidValidateDto aliceDto := by
    refine ⟨by decide, by decide, by decide, by decide, ?_, by decide⟩
    intro oid h
    injection h with h
    subst h
    exact ⟨by decide, by decide⟩
  have h := Reachable.validate stUser 0 true 0 aliceDto reachable_stUser hv
  rwa [show (validateCoupon 0 true 0 stUser aliceDto).2 = stAfterAlice from
    congrArg Prod.snd alice_step] at h

/-- Creation request for a shared-window coupon. -/
def createPromoDto : CreateTimeSpecificCouponDto :=
  { discountType := .fixed, discountValue := 10, maxDiscountAmount := none,
    minOrderValue := none, validFrom := 0, validUntil := 100,
    maxUsesPerUser := 5, maxTotalUses := some 3 }

/-- The shared-window coupon row created from createPromoDto: validity
window 0 to 100, per-user cap 5, aggregate cap 3. -/
def couponPromo : Coupon :=
  { id := 0
    code := "PROMO-1"
    type := .time_specific
    discountType := .fixed
    discountValue := 10
    maxDiscountAmount := none
    minOrderValue := 0
    status := .active
    userId := none
    validFrom := some 0
    validUntil := some 100
    maxUsesPerUser := some 5
    maxTotalUses := some 3
    currentTotalUses := 0 }

/-- The store holding just the promo coupon. -/
def stPromo : DBState := { coupons := [couponPromo], usage := [], logs := [], nextId := 1 }

/-- Validation request by alice against the promo coupon with order OP1. -/
def promoDto : ValidateCouponDto :=
  { code := "PROMO-1", userId := "alice", orderId := some "OP1", orderValue := 100 }

/-- The permitted result of the promo run. -/
def resPromo : ValidationResult :=
  { valid := true, coupon := some couponPromo,
    discountAmount := some 10, finalAmount := some 90 }

/-- The usage row committed by the promo run. -/
def usagePromo : Usage :=
  { couponId := 0, userId := "alice", orderId := some "OP1",
    orderValue := 100, discountApplied := 10 }

/-- The audit entry of the promo run. -/
def logPromo : ValidationLog :=
  { couponCode := "PROMO-1"
    userId := some "alice"
    orderId := some "OP1"
    orderValue := some 100
    isValid := true
    validationReason := none
    discountApplied := some 10
    finalAmount := some 90
    responseTimeMs := some 0
    couponId := some 0 }

/-- The store after the promo run. -/
def stAfterPromo : DBState :=
  { coupons := [{ couponPromo with currentTotalUses := 1 }]
    usage := [usagePromo]
    logs := [logPromo]
    nextId := 1 }

/-- The store after the promo commit, before the audit entry is queued. -/
def stPromoCommitted : DBState :=
  { coupons := [{ couponPromo with currentTotalUses := 1 }]
    usage := [usagePromo]
    logs := []
    nextId := 1 }

/-- The promo run evaluated at time 100, the exact validUntil instant:
the attempt is PERMITTED. -/
theorem promo_step : validateCoupon 100 true 0 stPromo promoDto = (Except.ok resPromo, stAfterPromo) := by
  have htv : validateTimeSpecificCoupon 100 stPromo couponPromo promoDto =
      ({ valid := true }, stPromo) := by
    norm_num [validateTimeSpecificCoupon, isWithinValidDateRange, capHit,
      expiredStateUpdate, getUserCouponUsageCount, stPromo, couponPromo, promoDto]
  have hcore : validateCouponCore 100 true stPromo promoDto =
      ({ valid := true, coupon := some couponPromo,
         discountAmount := some (calculateDiscount promoDto.orderValue couponPromo.discountType
           couponPromo.discountValue couponPromo.maxDiscountAmount),
         finalAmount := some (promoDto.orderValue - calculateDiscount promoDto.orderValue
           couponPromo.discountType couponPromo.discountValue couponPromo.maxDiscountAmount) },
        false, some couponPromo.id,
        recordUsageTransaction stPromo couponPromo promoDto
          (calculateDiscount promoDto.orderValue couponPromo.discountType
            couponPromo.discountValue couponPromo.maxDiscountAmount)) :=
    validateCouponCore_permit rfl rfl (by decide) rfl
      (by rw [if_neg (by decide), htv]) rfl rfl rfl
  have hpair := @validateCoupon_of_core 100 true 0 stPromo _ promoDto _ _ _ hcore
  rw [hpair]
  have hcd : calculateDiscount promoDto.orderValue couponPromo.discountType
      couponPromo.discountValue couponPromo.maxDiscountAmount = 10 := by
    norm_num [calculateDiscount, roundTo2, jsRound, couponPromo, promoDto]
  have hrec : recordUsageTransaction stPromo couponPromo promoDto
      (calculateDiscount promoDto.orderValue couponPromo.discountType
        couponPromo.discountValue couponPromo.maxDiscountAmount) = stPromoCommitted := by
    rw [hcd]
    norm_num [recordUsageTransaction, insertUsage, incrementTotalUses, maybeExhaust,
      updateCouponStatus, stPromo, couponPromo, promoDto, usagePromo, stPromoCommitted]
  rw [hrec, hcd]
  norm_num [stAfterPromo, stPromoCommitted, mkLog, resPromo, promoDto, logPromo,
    usagePromo, couponPromo]

/-- The promo store is reachable through the creation endpoint. -/
theorem reachable_stPromo : Reachable stPromo := by
  have hv : ValidCreateTimeDto createPromoDto := by
    refine ⟨by decide, ?_, ?_, by decide, by decide, ?_⟩
    · intro x hx
      cases hx
    · intro x hx
      cases hx
    · intro m hm
      injection hm with hm
      subst hm
      decide
  have h := Reachable.createTime stEmptyS stPromo "PROMO-1" createPromoDto Reachable.init hv rfl
  exact h

/-- C5 counterexample: the promo coupon has validUntil 100 and an attempt
at exactly time 100 is PERMITTED, not denied as expired: the source
compares with now less-or-equal validUntil, a closed interval. -/
theorem c5_at_validUntil_counterexample :
    couponPromo.validUntil = some 100 ∧
    (validateCoupon 100 true 0 stPromo promoDto).1 = Except.ok resPromo ∧
    resPromo.valid = true := by
  refine ⟨rfl, ?_, rfl⟩
  rw [promo_step]

/-- C5 (amended): the validity interval of a time-specific coupon is
CLOSED on both ends: the date check accepts exactly the instants t with
validFrom less-or-equal t less-or-equal validUntil (so an attempt exactly
at validUntil is still accepted, and only instants strictly past
validUntil fail the check), and every permitted attempt on a time-specific
coupon happened at such an instant. -/
theorem c5_closed_validity_interval :
    (∀ f u t : ℤ, isWithinValidDateRange (some f) (some u) t = true ↔ (f ≤ t ∧ t ≤ u))
    ∧ (∀ (now : ℤ) (commitOk : Bool) (elapsed : Nat) (st st' : DBState)
        (dto : ValidateCouponDto) (r : ValidationResult) (c : Coupon),
        validateCoupon now commitOk elapsed st dto = (Except.ok r, st') →
        r.valid = true →
        getCouponByCode st dto.code = some c →
        c.type = .time_specific →
        ∃ f u, c.validFrom = some f ∧ c.validUntil = some u ∧ f ≤ now ∧ now ≤ u) := by
  have hiff : ∀ f u t : ℤ, isWithinValidDateRange (some f) (some u) t = true ↔ (f ≤ t ∧ t ≤ u) := by
    intro f u t
    simp [isWithinValidDateRange]
  refine ⟨hiff, ?_⟩
  intro now commitOk elapsed st st' dto r c h hv hfind htype
  obtain ⟨c2, hfind2, hperm, -⟩ := validateCoupon_valid_shape h hv
  rw [hfind] at hfind2
  injection hfind2 with hc2
  subst hc2
  have hrange := (hperm.2.2.2.2.1 htype).1
  cases hf : c.validFrom with
  | none => rw [hf] at hrange; cases hrange
  | some f =>
    cases hu : c.validUntil with
    | none =>
      rw [hf, hu] at hrange
      cases hrange
    | some u =>
      rw [hf, hu] at hrange
      obtain ⟨h1, h2⟩ := (hiff f u now).1 hrange
      exact ⟨f, u, rfl, rfl, h1, h2⟩

/-- C5 witness: the closed-interval characterization at the endpoints, and
the permitted promo run at the exact validUntil instant. -/
theorem c5_closed_validity_interval_witness :
    isWithinValidDateRange (some 0) (some 100) 100 = true ∧
    isWithinValidDateRange (some 0) (some 100) 0 = true ∧
    (∃ f u, couponPromo.validFrom = some f ∧ couponPromo.validUntil = some u ∧
      f ≤ 100 ∧ (100 : ℤ) ≤ u) :=
  ⟨(c5_closed_validity_interval.1 0 100 100).2 ⟨by decide, by decide⟩,
    (c5_closed_validity_interval.1 0 100 0).2 ⟨by decide, by decide⟩,
    c5_closed_validity_interval.2 100 true 0 stPromo stAfterPromo promoDto resPromo
      couponPromo promo_step rfl rfl rfl⟩

/-- C9 (amended): a validation attempt on an ACTIVE time-specific coupon
whose validUntil lies strictly in the past, meeting the minimum order and
carrying no already-used orderId, is denied with the expired reason, and
as a side effect the status of that coupon row is updated to expired. -/
theorem c9_expired_denial_updates_status {now : ℤ} {commitOk : Bool} {elapsed : Nat}
    {st : DBState} {dto : ValidateCouponDto} {c : Coupon} {u : ℤ}
    (hfind : getCouponByCode st dto.code = some c)
    (htype : c.type = .time_specific)
    (hstat : c.status = .active)
    (hmin : ¬ dto.orderValue < c.minOrderValue)
    (hdup : dupOrderCheck st dto.orderId = false)
    (hu : c.validUntil = some u)
    (hnow : u < now) :
    (validateCoupon now commitOk elapsed st dto).1 =
      Except.ok { valid := false, reason := some "Coupon has expired or is not yet valid" } ∧
    (∀ c' ∈ (validateCoupon now commitOk elapsed st dto).2.coupons,
      c'.id = c.id → c'.status = .expired) := by
  have htv := @validateTimeSpecificCoupon_expired now st c dto u hu hnow
  have hcore := @validateCouponCore_policy_deny now commitOk st
    (updateCouponStatus st c.id .expired) dto c
    { valid := false, reason := some "Coupon has expired or is not yet valid" }
    hfind hstat hmin hdup (by rw [if_neg (by simp [htype]), htv]) rfl
  have hpair := @validateCoupon_of_core now commitOk elapsed st _ dto _ _ _ hcore
  rw [hpair]
  refine ⟨by simp, ?_⟩
  intro c' hc' hid
  exact updateCouponStatus_mem_status hc' hid

/-- A concrete store for the C9 witness: the promo coupon, consulted well
past its window. -/
def stC9w : DBState := { coupons := [couponPromo], usage := [], logs := [], nextId := 1 }

/-- A validation request against the promo coupon with no orderId. -/
def dtoC9w : ValidateCouponDto :=
  { code := "PROMO-1", userId := "bob", orderId := none, orderValue := 60 }

/-- C9 witness: at time 200, past validUntil 100, the attempt is denied as
expired and the coupon row becomes expired. -/
theorem c9_expired_denial_updates_status_witness :
    (validateCoupon 200 true 0 stC9w dtoC9w).1 =
      Except.ok { valid := false, reason := some "Coupon has expired or is not yet valid" } ∧
    (∀ c' ∈ (validateCoupon 200 true 0 stC9w dtoC9w).2.coupons,
      c'.id = couponPromo.id → c'.status = .expired) :=
  c9_expired_denial_updates_status rfl rfl rfl (by decide) rfl rfl (by decide)

/-- The store of the C9 counterexample: the promo-like coupon together
with a usage row whose orderId OX is already taken. -/
def couponC9 : Coupon :=
  { id := 0
    code := "PROMO-9"
    type := .time_specific
    discountType := .fixed
    discountValue := 10
    maxDiscountAmount := none
    minOrderValue := 0
    status := .active
    userId := none
    validFrom := some 0
    validUntil := some 100
    maxUsesPerUser := some 5
    maxTotalUses := none
    currentTotalUses := 1 }

/-- The pre-existing usage row holding orderId OX. -/
def usageC9 : Usage :=
  { couponId := 0, userId := "alice", orderId := some "OX",
    orderValue := 50, discountApplied := 10 }

/-- The counterexample store. -/
def stC9 : DBState := { coupons := [couponC9], usage := [usageC9], logs := [], nextId := 1 }

/-- The counterexample request: past the window AND reusing orderId OX. -/
def dtoC9 : ValidateCouponDto :=
  { code := "PROMO-9", userId := "alice", orderId := some "OX", orderValue := 60 }

/-- C9 counterexample: the coupon's validUntil 100 lies strictly before
the attempt time 200, yet the attempt is denied with the duplicate-order
reason, not the expired reason, and the coupon's status stays active: the
duplicate-order gate short-circuits before the expiry check runs. -/
theorem c9_counterexample :
    couponC9.validUntil = some 100 ∧ (100 : ℤ) < 200 ∧
    (validateCoupon 200 true 0 stC9 dtoC9).1 =
      Except.ok { valid := false, reason := some "This order has already used a coupon" } ∧
    some "This order has already used a coupon" ≠
      some "Coupon has expired or is not yet valid" ∧
    (∀ c' ∈ (validateCoupon 200 true 0 stC9 dtoC9).2.coupons, c'.status = .active) := by
  have hcore := @validateCouponCore_dup_deny 200 true stC9 dtoC9 couponC9
    rfl rfl (by decide) (by decide)
  have hpair := @validateCoupon_of_core 200 true 0 stC9 _ dtoC9 _ _ _ hcore
  rw [hpair]
  refine ⟨rfl, by decide, by simp, by simp, ?_⟩
  intro c' hc'
  have : c' = couponC9 := by
    simpa [stC9] using hc'
  rw [this]
  rfl

/-- C2 (amended): in every reachable store, each user-specific coupon is
referenced by at most one usage row; an attempt is permitted only if the
requesting subject is the bound subject with zero prior redemptions; and
after a success, a further attempt by the bound subject that passes the
status, minimum-order, and duplicate-order gates is denied with the
already-used reason (attempts failing an earlier gate are denied with that
gate's reason instead). -/
theorem c2_single_use :
    (∀ st : DBState, Reachable st → ∀ c ∈ st.coupons, c.type = .user_specific →
      usageCountFor st c.id ≤ 1)
    ∧ (∀ (now : ℤ) (commitOk : Bool) (elapsed : Nat) (st st' : DBState)
        (dto : ValidateCouponDto) (r : ValidationResult) (c : Coupon),
        validateCoupon now commitOk elapsed st dto = (Except.ok r, st') →
        r.valid = true →
        getCouponByCode st dto.code = some c →
        c.type = .user_specific →
        c.userId = some dto.userId ∧ getUserCouponUsageCount st c.id dto.userId = 0)
    ∧ (∀ (now : ℤ) (commitOk : Bool) (elapsed : Nat) (st : DBState)
        (dto : ValidateCouponDto) (c : Coupon),
        getCouponByCode st dto.code = some c →
        c.type = .user_specific →
        c.status = .active →
        ¬ dto.orderValue < c.minOrderValue →
        dupOrderCheck st dto.orderId = false →
        c.userId = some dto.userId →
        0 < getUserCouponUsageCount st c.id dto.userId →
        (validateCoupon now commitOk elapsed st dto).1 =
          Except.ok { valid := false, reason := some "You have already used this coupon" }) := by
  refine ⟨?_, ?_, ?_⟩
  · intro st hre c hc ht
    exact (reachable_inv hre).userSingle c hc ht
  · intro now commitOk elapsed st st' dto r c h hv hfind htype
    obtain ⟨c2, hfind2, hperm, -⟩ := validateCoupon_valid_shape h hv
    rw [hfind] at hfind2
    injection hfind2 with hc2
    subst hc2
    exact hperm.2.2.2.1 htype
  · intro now commitOk elapsed st dto c hfind htype hstat hmin hdup hbound hcnt
    have husr := validateUserSpecificCoupon_alreadyUsed hbound hcnt
    have hcore := @validateCouponCore_policy_deny now commitOk st st dto c
      { valid := false, reason := some "You have already used this coupon" }
      hfind hstat hmin hdup (by rw [if_pos htype, husr]) rfl
    have hpair := @validateCoupon_of_core now commitOk elapsed st _ dto _ _ _ hcore
    rw [hpair]
    rfl

/-- A repeat attempt by alice on her exhausted coupon with a fresh order. -/
def aliceDto2 : ValidateCouponDto :=
  { code := "USER-1", userId := "alice", orderId := some "O2", orderValue := 100 }

/-- C2 witness: the invariant at the reachable post-alice store, the
permit-only-if facts at the alice run, and the already-used denial of a
repeat attempt by alice. -/
theorem c2_single_use_witness :
    usageCountFor stAfterAlice 0 ≤ 1 ∧
    (couponUser.userId = some "alice" ∧
      getUserCouponUsageCount stUser couponUser.id "alice" = 0) ∧
    (validateCoupon 0 true 0 stAfterAlice aliceDto2).1 =
      Except.ok { valid := false, reason := some "You have already used this coupon" } :=
  ⟨c2_single_use.1 stAfterAlice reachable_stAfterAlice
      couponUser1 (List.mem_cons_self _ _) rfl,
    c2_single_use.2.1 0 true 0 stUser stAfterAlice aliceDto resAlice couponUser
      alice_step rfl rfl rfl,
    c2_single_use.2.2 0 true 0 stAfterAlice aliceDto2
      couponUser1 rfl rfl rfl (by decide) rfl rfl (by decide)⟩

/-- An attempt by bob against the coupon bound to alice, after the first
success. -/
def bobDto : ValidateCouponDto :=
  { code := "USER-1", userId := "bob", orderId := some "O3", orderValue := 100 }

/-- C2 counterexample: after the one successful redemption of the alice
coupon, an attempt by bob is denied with the not-assigned reason, not the
already-used reason: the claim that ANY later attempt carries the
already-used reason is false. -/
theorem c2_counterexample :
    usageCountFor stAfterAlice 0 = 1 ∧
    (validateCoupon 0 true 0 stAfterAlice bobDto).1 =
      Except.ok { valid := false, reason := some "This coupon is not assigned to you" } ∧
    some "This coupon is not assigned to you" ≠ some "You have already used this coupon" := by
  have husr : validateUserSpecificCoupon stAfterAlice couponUser1 bobDto =
      { valid := false, reason := some "This coupon is not assigned to you" } := by
    unfold validateUserSpecificCoupon
    rw [if_pos (by decide)]
  have hcore := @validateCouponCore_policy_deny 0 true stAfterAlice stAfterAlice bobDto
    couponUser1
    { valid := false, reason := some "This coupon is not assigned to you" }
    rfl rfl (by decide) rfl
    (by rw [if_pos (show couponUser1.type = CouponType.user_specific from rfl), husr]) rfl
  have hpair := @validateCoupon_of_core 0 true 0 stAfterAlice _ bobDto _ _ _ hcore
  rw [hpair]
  exact ⟨by decide, by simp, by simp⟩

/-- C3 (amended): in every reachable store at most one usage row carries
any given orderId (at most one attempt with that orderId ever commits);
and every later attempt reusing a committed non-empty orderId that passes
the existence, status, and minimum-order gates is denied with the
duplicate-order reason, whatever coupon it names (attempts failing an
earlier gate are denied with that gate's reason instead). -/
theorem c3_duplicate_order :
    (∀ st : DBState, Reachable st → ∀ oid : String, countOrder st oid ≤ 1)
    ∧ (∀ (now : ℤ) (commitOk : Bool) (elapsed : Nat) (st : DBState)
        (dto : ValidateCouponDto) (c : Coupon) (oid : String),
        getCouponByCode st dto.code = some c →
        c.status = .active →
        ¬ dto.orderValue < c.minOrderValue →
        dto.orderId = some oid → oid ≠ "" →
        isOrderAlreadyUsed st oid = true →
        (validateCoupon now commitOk elapsed st dto).1 =
          Except.ok { valid := false, reason := some "This order has already used a coupon" }) := by
  refine ⟨?_, ?_⟩
  · intro st hre oid
    exact (reachable_inv hre).orderUnique oid
  · intro now commitOk elapsed st dto c oid hfind hstat hmin hoid hne hused
    have hdup : dupOrderCheck st dto.orderId = true := by
      simp [dupOrderCheck, hoid, hne, hused]
    have hcore := @validateCouponCore_dup_deny now commitOk st dto c hfind hstat hmin hdup
    have hpair := @validateCoupon_of_core now commitOk elapsed st _ dto _ _ _ hcore
    rw [hpair]
    rfl

/-- A repeat of order O1 against the alice coupon. -/
def aliceDtoO1 : ValidateCouponDto :=
  { code := "USER-1", userId := "alice", orderId := some "O1", orderValue := 100 }

/-- C3 witness: the order-uniqueness invariant at the reachable post-alice
store, and the duplicate-order denial of a second attempt reusing O1. -/
theorem c3_duplicate_order_witness :
    countOrder stAfterAlice "O1" ≤ 1 ∧
    (validateCoupon 0 true 0 stAfterAlice aliceDtoO1).1 =
      Except.ok { valid := false, reason := some "This order has already used a coupon" } :=
  ⟨c3_duplicate_order.1 stAfterAlice reachable_stAfterAlice "O1",
    c3_duplicate_order.2 0 true 0 stAfterAlice aliceDtoO1
      couponUser1 "O1" rfl rfl (by decide) rfl
      (by decide) (by decide)⟩

/-- An attempt reusing the committed orderId O1 against an unknown code. -/
def dtoNope : ValidateCouponDto :=
  { code := "NOPE", userId := "bob", orderId := some "O1", orderValue := 100 }

/-- C3 counterexample: order O1 already committed one redemption, yet a
later attempt carrying O1 against an unknown code is denied with the
not-found reason, not the duplicate-order reason: the claim that EVERY
later attempt with that orderId carries the duplicate reason is false. -/
theorem c3_counterexample :
    countOrder stAfterAlice "O1" = 1 ∧
    (validateCoupon 0 true 0 stAfterAlice dtoNope).1 =
      Except.ok { valid := false, reason := some "Coupon not found" } ∧
    some "Coupon not found" ≠ some "This order has already used a coupon" := by
  have hcore : validateCouponCore 0 true stAfterAlice dtoNope =
      ({ valid := false, reason := some "Coupon not found" }, false, none, stAfterAlice) := rfl
  have hpair := @validateCoupon_of_core 0 true 0 stAfterAlice _ dtoNope _ _ _ hcore
  rw [hpair]
  exact ⟨by decide, by simp, by simp⟩

/-- C1 (confirmed): an in-window attempt on an active time-specific
coupon that finds the aggregate counter at or above a truthy aggregate cap
is denied with the usage-limit reason; a permitted attempt increments the
redeemed coupon's counter by exactly one; and in every reachable store the
counter of a capped coupon never exceeds its cap. -/
theorem c1_aggregate_cap :
    (∀ (now : ℤ) (commitOk : Bool) (elapsed : Nat) (st : DBState)
        (dto : ValidateCouponDto) (c : Coupon) (m : ℤ),
        getCouponByCode st dto.code = some c →
        c.type = .time_specific →
        c.status = .active →
        ¬ dto.orderValue < c.minOrderValue →
        dupOrderCheck st dto.orderId = false →
        isWithinValidDateRange c.validFrom c.validUntil now = true →
        c.maxTotalUses = some m → m ≠ 0 →
        (c.currentTotalUses : ℤ) ≥ m →
        (validateCoupon now commitOk elapsed st dto).1 =
          Except.ok { valid := false, reason := some "Coupon usage limit reached" })
    ∧ (∀ (now : ℤ) (commitOk : Bool) (elapsed : Nat) (st st' : DBState)
        (dto : ValidateCouponDto) (r : ValidationResult),
        validateCoupon now commitOk elapsed st dto = (Except.ok r, st') →
        r.valid = true →
        ∃ c, getCouponByCode st dto.code = some c ∧
          usesOf st' c.id = (usesOf st c.id).map (· + 1))
    ∧ (∀ st : DBState, Reachable st → ∀ c ∈ st.coupons, ∀ m : ℤ,
        c.maxTotalUses = some m → (c.currentTotalUses : ℤ) ≤ m) := by
  refine ⟨?_, ?_, ?_⟩
  · intro now commitOk elapsed st dto c m hfind htype hstat hmin hdup hrange hm hm0 hge
    have htv := @validateTimeSpecificCoupon_limit now st c dto m hrange hm hm0 hge
    have hcore := @validateCouponCore_policy_deny now commitOk st
      (updateCouponStatus st c.id .exhausted) dto c
      { valid := false, reason := some "Coupon usage limit reached" }
      hfind hstat hmin hdup (by rw [if_neg (by simp [htype]), htv]) rfl
    have hpair := @validateCoupon_of_core now commitOk elapsed st _ dto _ _ _ hcore
    rw [hpair]
    rfl
  · intro now commitOk elapsed st st' dto r h hv
    obtain ⟨h1, -, h3⟩ := validateCoupon_ok_elim h
    rcases validateCouponCore_cases now commitOk st dto with ⟨hvf, -⟩ | ⟨c, hfind, -, -, hst⟩
    · rw [h1, hv] at hvf
      cases hvf
    · refine ⟨c, hfind, ?_⟩
      rw [h3]
      have hlogs : usesOf { (validateCouponCore now commitOk st dto).2.2.2 with
          logs := (validateCouponCore now commitOk st dto).2.2.2.logs ++
            [mkLog dto r elapsed (validateCouponCore now commitOk st dto).2.2.1] } c.id =
          usesOf (validateCouponCore now commitOk st dto).2.2.2 c.id := rfl
      rw [hlogs, hst]
      exact usesOf_recordUsage st c dto _
  · intro st hre c hc m hm
    exact (reachable_inv hre).capInv c hc m hm

/-- A time-specific coupon whose aggregate counter sits at its cap 1. -/
def couponC1 : Coupon :=
  { id := 0
    code := "PROMO-C1"
    type := .time_specific
    discountType := .fixed
    discountValue := 10
    maxDiscountAmount := none
    minOrderValue := 0
    status := .active
    userId := none
    validFrom := some 0
    validUntil := some 100
    maxUsesPerUser := some 5
    maxTotalUses := some 1
    currentTotalUses := 1 }

/-- The store holding the capped coupon. -/
def stC1 : DBState := { coupons := [couponC1], usage := [], logs := [], nextId := 1 }

/-- An in-window attempt against the capped coupon. -/
def dtoC1 : ValidateCouponDto :=
  { code := "PROMO-C1", userId := "carol", orderId := none, orderValue := 50 }

/-- C1 witness: the usage-limit denial at the capped coupon, the
exactly-one increment at the permitted promo run, and the cap invariant at
the reachable promo store. -/
theorem c1_aggregate_cap_witness :
    (validateCoupon 10 true 0 stC1 dtoC1).1 =
      Except.ok { valid := false, reason := some "Coupon usage limit reached" } ∧
    (∃ c, getCouponByCode stPromo promoDto.code = some c ∧
      usesOf stAfterPromo c.id = (usesOf stPromo c.id).map (· + 1)) ∧
    (couponPromo.currentTotalUses : ℤ) ≤ 3 :=
  ⟨c1_aggregate_cap.1 10 true 0 stC1 dtoC1 couponC1 1 rfl rfl rfl (by decide) rfl
      (by decide) rfl (by decide) (by decide),
    c1_aggregate_cap.2.1 100 true 0 stPromo stAfterPromo promoDto resPromo promo_step rfl,
    c1_aggregate_cap.2.2 stPromo reachable_stPromo couponPromo (List.mem_cons_self _ _) 3 rfl⟩

end CouponSys
